import Mathlib

/-!
Formal model of the libscanner crawl-extract-classify-persist pipeline.

The definitions below are a shallow embedding of the Python sources:
  * scraper/analysis.py  — date parsing, negative-keyword filtering,
    multi-document page detection, deterministic and AI-assisted extraction
    of sub-documents, the `save_to_database` sync engine with conditional
    enrichment, and the `scrape_all_results` orchestration;
  * scraper/scraper.py   — the HTTP retry loop `make_request_with_retry`,
    the legacy `save_to_database` path with ICPE classification, and the
    result-card extractor `extract_card_data`;
  * scraper/models.py    — the persisted `GovernmentDocument` rows, whose
    store is modelled as a list of rows accessed through lookup / replace /
    erase / append operations keyed by `link`.

External effects (HTTP fetches, PDF text extraction, the classification
oracle, the negative-keyword table, the prefecture lookup and the clock)
are supplied by an explicit environment record, so every function is
executable on concrete inputs.  `datetime` values are modelled as integers
ordered lexicographically by (year, month, day); `timedelta(days = k)`
subtraction becomes integer subtraction on the same axis.
-/

/-! ## Character and string helpers (Python `str` operations) -/

/-- Lowercase a character the way Python `str.lower` does on the alphabets
this code base actually meets (ASCII plus the accented capitals used in the
French pattern literals). -/
def lowerChar (c : Char) : Char :=
  if 'A' ≤ c ∧ c ≤ 'Z' then Char.ofNat (c.toNat + 32)
  else if c = 'À' then 'à'
  else if c = 'Â' then 'â'
  else if c = 'É' then 'é'
  else if c = 'È' then 'è'
  else if c = 'Ê' then 'ê'
  else if c = 'Ë' then 'ë'
  else if c = 'Î' then 'î'
  else if c = 'Ï' then 'ï'
  else if c = 'Ô' then 'ô'
  else if c = 'Û' then 'û'
  else if c = 'Ü' then 'ü'
  else if c = 'Ç' then 'ç'
  else c

/-- Lowercase every character of a list. -/
def lowerList (l : List Char) : List Char := l.map lowerChar

/-- Python whitespace test for the characters `strip`/`\s` handle here. -/
def isWs (c : Char) : Bool := c = ' ' ∨ c = '\t' ∨ c = '\n' ∨ c = '\r'

/-- Python `str.lstrip` on a character list. -/
def ltrimList (l : List Char) : List Char := l.dropWhile isWs

/-- Python `str.strip` on a character list. -/
def trimList (l : List Char) : List Char :=
  ((l.dropWhile isWs).reverse.dropWhile isWs).reverse

/-- Python `str.rstrip` (whitespace) on a character list. -/
def rtrimList (l : List Char) : List Char :=
  (l.reverse.dropWhile isWs).reverse

/-- Does `needle` occur as a contiguous sublist of `hay`?  This is Python's
`needle in hay` on strings (an empty needle matches everywhere). -/
def containsSub (needle : List Char) : List Char → Bool
  | [] => needle.isPrefixOf []
  | c :: rest => needle.isPrefixOf (c :: rest) || containsSub needle rest

/-- Worker for `removeAllList`; the numeric argument is a step budget that
starts at the input length (each step consumes at least one character), so
the recursion is structural and computes inside the kernel. -/
def removeAllAux (pat : List Char) : Nat → List Char → List Char
  | _, [] => []
  | 0, l => l
  | n + 1, c :: rest =>
    if pat ≠ [] ∧ pat.isPrefixOf (c :: rest) then
      removeAllAux pat n (List.drop (pat.length - 1) rest)
    else
      c :: removeAllAux pat n rest

/-- Python `hay.replace(pat, "")` : delete every non-overlapping occurrence
of `pat`, scanning left to right.  `pat` is assumed non-empty (the sources
only call `replace` with non-empty literals or guard emptiness first). -/
def removeAllList (pat l : List Char) : List Char := removeAllAux pat l.length l

/-- String wrapper for `containsSub`. -/
def strContains (hay needle : String) : Bool := containsSub needle.data hay.data

/-- String wrapper for lowercasing. -/
def strLower (s : String) : String := ⟨lowerList s.data⟩

/-- String wrapper for `strip`. -/
def strTrim (s : String) : String := ⟨trimList s.data⟩

/-- Python `s.endswith(suffix)` on lists. -/
def endsWithList (l suffix : List Char) : Bool := suffix.isSuffixOf l

/-- Python `s.startswith(p)` (kernel-computable, unlike `String.startsWith`). -/
def strStartsWith (s p : String) : Bool := p.data.isPrefixOf s.data

/-- Python `s.endswith(p)` on strings. -/
def strEndsWith (s p : String) : Bool := p.data.isSuffixOf s.data

/-! ## Date patterns (analysis.py `DATE_PATTERNS`, `parse_date_from_detail`) -/

/-- Numeric value of a decimal digit character. -/
def digitVal (c : Char) : Nat := c.toNat - '0'.toNat

/-- Greedy match of the regex fragment `(\d{1,2})/` at the head of the
input: try two digits then a slash, otherwise one digit then a slash.
Returns the parsed number and the remaining characters after the slash. -/
def matchDayOrMonth : List Char → Option (Nat × List Char)
  | a :: b :: c :: rest =>
    if a.isDigit ∧ b.isDigit ∧ c = '/' then some (10 * digitVal a + digitVal b, rest)
    else if a.isDigit ∧ b = '/' then some (digitVal a, c :: rest)
    else none
  | a :: b :: rest =>
    if a.isDigit ∧ b = '/' then some (digitVal a, rest)
    else none
  | _ => none

/-- Match the regex fragment `(\d{4})` at the head of the input (exactly
four digits; any following characters are unconstrained). -/
def matchYear4 : List Char → Option Nat
  | a :: b :: c :: d :: _ =>
    if a.isDigit ∧ b.isDigit ∧ c.isDigit ∧ d.isDigit then
      some (1000 * digitVal a + 100 * digitVal b + 10 * digitVal c + digitVal d)
    else none
  | _ => none

/-- Try to match `lit` followed by `(\d{1,2})/(\d{1,2})/(\d{4})` at the
current position.  Returns `(day, month, year)` on success. -/
def matchDateAt (lit : List Char) (l : List Char) : Option (Nat × Nat × Nat) :=
  if lit.isPrefixOf l then
    match matchDayOrMonth (List.drop lit.length l) with
    | none => none
    | some (day, rest) =>
      match matchDayOrMonth rest with
      | none => none
      | some (month, rest2) =>
        match matchYear4 rest2 with
        | none => none
        | some year => some (day, month, year)
  else none

/-- `re.search` for one date pattern: scan positions left to right and
return the first full match. -/
def searchDate (lit : List Char) : List Char → Option (Nat × Nat × Nat)
  | [] => matchDateAt lit []
  | c :: rest =>
    match matchDateAt lit (c :: rest) with
    | some r => some r
    | none => searchDate lit rest

/-- Gregorian leap-year test (what `datetime` uses for validity). -/
def isLeapYear (y : Nat) : Bool := y % 4 = 0 ∧ (y % 100 ≠ 0 ∨ y % 400 = 0)

/-- Number of days in a month, for `datetime` construction validity. -/
def daysInMonth (y m : Nat) : Nat :=
  if m = 2 then (if isLeapYear y then 29 else 28)
  else if m = 4 ∨ m = 6 ∨ m = 9 ∨ m = 11 then 30
  else 31

/-- Would `datetime(year, month, day)` succeed? -/
def validDate (day month year : Nat) : Bool :=
  1 ≤ year ∧ year ≤ 9999 ∧ 1 ≤ month ∧ month ≤ 12 ∧ 1 ≤ day ∧ day ≤ daysInMonth year month

/-- Abstract timestamp for a calendar date: an integer encoding ordered
lexicographically by (year, month, day).  The `now` clock and
`timedelta(days=k)` offsets live on the same axis. -/
def mkTimestamp (day month year : Nat) : Int :=
  ((year * 12 + month) * 31 + day : Nat)

/-- The three patterns of `DATE_PATTERNS` in analysis.py, lowercased (the
originals carry `re.IGNORECASE`). -/
def datePatternLits : List (List Char) :=
  ["mis à jour le ".data, "publié le ".data, "le ".data]

/-- Pure part of analysis.py `parse_date_from_detail`: find the first
pattern (in declaration order) that matches anywhere in the lowercased
text; if its day/month/year build a valid `datetime`, return its
timestamp.  An invalid date on the first matching pattern hits the
`except` + `break` and falls through (`none`), as does no match at all. -/
def parseDetailPure (detail : String) : Option Int :=
  let chars := lowerList detail.data
  match datePatternLits.findSome? (fun lit => (searchDate lit chars).map (lit, ·)) with
  | some (_, (day, month, year)) =>
    if validDate day month year then some (mkTimestamp day month year) else none
  | none => none

/-- analysis.py `parse_date_from_detail` : parsed timestamp, defaulting to
`timezone.now()`. -/
def parse_date_from_detail (detail : String) (now : Int) : Int :=
  (parseDetailPure detail).getD now

/-- scraper.py has its own `parse_date_from_detail` restricted to the
case-sensitive pattern `Mis à jour le (\d{1,2})/(\d{1,2})/(\d{4})`. -/
def scraperParseDatePure (detail : String) : Option Int :=
  match searchDate "Mis à jour le ".data detail.data with
  | some (day, month, year) =>
    if validDate day month year then some (mkTimestamp day month year) else none
  | none => none

/-- scraper.py `parse_date_from_detail`, defaulting to `timezone.now()`. -/
def scraper_parse_date_from_detail (detail : String) (now : Int) : Int :=
  (scraperParseDatePure detail).getD now

example : parseDetailPure "Mis à jour le 17/04/2024" = some (mkTimestamp 17 4 2024) := by
  decide

example : parseDetailPure "17/04/2024" = none := by decide

example : parseDetailPure "Publié le 31/02/2024" = none := by decide

example : parse_date_from_detail "17/04/2024" 42 = 42 := by decide

/-! ## Regexes of `extract_arretes_prefectoraux_deterministic` -/

/-- Match `(\d{2}/\d{2}/\d{4})` at the current position, returning the ten
matched characters. -/
def matchDDMMYYYYAt : List Char → Option (List Char)
  | d1 :: d2 :: s1 :: m1 :: m2 :: s2 :: y1 :: y2 :: y3 :: y4 :: _ =>
    if d1.isDigit ∧ d2.isDigit ∧ s1 = '/' ∧ m1.isDigit ∧ m2.isDigit ∧ s2 = '/' ∧
        y1.isDigit ∧ y2.isDigit ∧ y3.isDigit ∧ y4.isDigit then
      some [d1, d2, s1, m1, m2, s2, y1, y2, y3, y4]
    else none
  | _ => none

/-- `re.search(r'(\d{2}/\d{2}/\d{4})', s)` : first position where the
pattern matches. -/
def searchDDMMYYYY : List Char → Option (List Char)
  | [] => none
  | c :: rest =>
    match matchDDMMYYYYAt (c :: rest) with
    | some r => some r
    | none => searchDDMMYYYY rest

/-- Match `(\d{4}-\d{2}-\d{2})` at the current position, returning
`(year, month, day)` as digit lists. -/
def matchYYYYMMDDAt : List Char → Option (List Char × List Char × List Char)
  | y1 :: y2 :: y3 :: y4 :: s1 :: m1 :: m2 :: s2 :: d1 :: d2 :: _ =>
    if y1.isDigit ∧ y2.isDigit ∧ y3.isDigit ∧ y4.isDigit ∧ s1 = '-' ∧
        m1.isDigit ∧ m2.isDigit ∧ s2 = '-' ∧ d1.isDigit ∧ d2.isDigit then
      some ([y1, y2, y3, y4], [m1, m2], [d1, d2])
    else none
  | _ => none

/-- `re.search(r'(\d{4}-\d{2}-\d{2})', s)`. -/
def searchYYYYMMDD : List Char → Option (List Char × List Char × List Char)
  | [] => none
  | c :: rest =>
    match matchYYYYMMDDAt (c :: rest) with
    | some r => some r
    | none => searchYYYYMMDD rest

/-- The `YYYY-MM-DD → DD/MM/YYYY` conversion used when the date comes from
the href or the title: `f"{day}/{month}/{year}"`. -/
def ymdToSlashed (ymd : List Char × List Char × List Char) : List Char :=
  ymd.2.2 ++ '/' :: ymd.2.1 ++ '/' :: ymd.1

/-- Removal of `re.sub(r'\s*TOK\s*$', '', s, flags=IGNORECASE)` for a fixed
alphabetic token (used with PDF / DOCX / ODT): if the right-stripped string
ends with the token (case-insensitively), drop the token and any
whitespace around it; otherwise return the string unchanged. -/
def removeTokenSuffixCI (tok : List Char) (l : List Char) : List Char :=
  let r := rtrimList l
  if endsWithList (lowerList r) tok then
    rtrimList (List.take (r.length - tok.length) r)
  else l

/-- Right-to-left matcher for `re.sub(r'\s*-\s*\d+[.,]\d+\s*[KMkm]?[Bb]\s*$', '', s)`
(trailing file sizes such as `- 0,07 Mb`).  Works on the reversed
character list; returns the reversed remainder on a match. -/
def matchSizeSuffixRev (rl : List Char) : Option (List Char) :=
  let r1 := rl.dropWhile isWs
  match r1 with
  | b :: r2 =>
    if b = 'b' ∨ b = 'B' then
      let r3 := match r2 with
        | k :: r2' => if k = 'K' ∨ k = 'M' ∨ k = 'k' ∨ k = 'm' then r2' else r2
        | [] => r2
      let r4 := r3.dropWhile isWs
      let digits1 := r4.takeWhile Char.isDigit
      let r5 := r4.dropWhile Char.isDigit
      if digits1 = [] then none
      else
        match r5 with
        | p :: r6 =>
          if p = '.' ∨ p = ',' then
            let digits2 := r6.takeWhile Char.isDigit
            let r7 := r6.dropWhile Char.isDigit
            if digits2 = [] then none
            else
              let r8 := r7.dropWhile isWs
              match r8 with
              | '-' :: r9 => some (r9.dropWhile isWs)
              | _ => none
          else none
        | [] => none
    else none
  | [] => none

/-- `re.sub(r'\s*-\s*\d+[.,]\d+\s*[KMkm]?[Bb]\s*$', '', s)`. -/
def removeSizeSuffix (l : List Char) : List Char :=
  match matchSizeSuffixRev l.reverse with
  | some rem => rem.reverse
  | none => l

/-- Right-to-left matcher for `re.sub(r'\s*-\s*\d{2}/\d{2}/\d{4}\s*$', '', s)`
(trailing update dates such as `- 17/04/2024`). -/
def matchDateSuffixRev (rl : List Char) : Option (List Char) :=
  match rl.dropWhile isWs with
  | y4 :: y3 :: y2 :: y1 :: s2 :: m2 :: m1 :: s1 :: d2 :: d1 :: rest =>
    if y1.isDigit ∧ y2.isDigit ∧ y3.isDigit ∧ y4.isDigit ∧ s2 = '/' ∧
        m1.isDigit ∧ m2.isDigit ∧ s1 = '/' ∧ d1.isDigit ∧ d2.isDigit then
      match rest.dropWhile isWs with
      | '-' :: r => some (r.dropWhile isWs)
      | _ => none
    else none
  | _ => none

/-- `re.sub(r'\s*-\s*\d{2}/\d{2}/\d{4}\s*$', '', s)`. -/
def removeDateSuffix (l : List Char) : List Char :=
  match matchDateSuffixRev l.reverse with
  | some rem => rem.reverse
  | none => l

/-! ## `urllib.parse.urljoin`, modelled -/

/-- Worker for `urlOrigin`: keep characters until `://`, then keep the
authority (up to the next `/`); a URL without `://` is returned whole. -/
def originAux : List Char → List Char
  | [] => []
  | ':' :: '/' :: '/' :: rest => ':' :: '/' :: '/' :: rest.takeWhile (· ≠ '/')
  | c :: rest => c :: originAux rest

/-- Scheme-plus-authority of an absolute URL: everything up to (and not
including) the first `/` after `://`.  Model of the part of
`urllib.parse.urljoin` these call sites exercise. -/
def urlOrigin (base : String) : String := ⟨originAux base.data⟩

/-- Worker for `urlDir`: the prefix up to and including the last `/`, or
`none` when the URL has no `/` at all. -/
def dirAux : List Char → Option (List Char)
  | [] => none
  | c :: rest =>
    match dirAux rest with
    | some d => some (c :: d)
    | none => if c = '/' then some ['/'] else none

/-- Directory part of a URL: everything up to and including the last `/`
after the authority; falls back to `base ++ "/"` when the last slash sits
inside the scheme separator or no slash exists. -/
def urlDir (base : String) : String :=
  match dirAux base.data with
  | some d => if (originAux base.data).length ≤ d.length then ⟨d⟩ else base ++ "/"
  | none => base ++ "/"

/-- Model of `urllib.parse.urljoin(base, rel)` for the shapes these call
sites produce: an already-absolute `rel` wins, a root-relative `rel` is
attached to the origin, and any other `rel` to the directory of `base`. -/
def urljoin (base rel : String) : String :=
  if rel = "" then base
  else if strStartsWith rel "http" then rel
  else if strStartsWith rel "/" then urlOrigin base ++ rel
  else urlDir base ++ rel

example : urljoin "https://www.x.gouv.fr/a/b" "/doc.pdf" = "https://www.x.gouv.fr/doc.pdf" := by
  decide

example : urljoin "https://www.x.gouv.fr/a/b" "doc.pdf" = "https://www.x.gouv.fr/a/doc.pdf" := by
  decide

/-! ## Data model -/

/-- analysis/scraper `ScrapedCard`: one candidate record.  `metadata` maps
class names to the ordered list of texts found under that class. -/
structure ScrapedCard where
  title : String
  link : String
  description : String
  date_label : String
  metadata : List (String × List String)
  html_content : Option String
deriving DecidableEq

/-- models.py `GovernmentDocument` row (union of the fields the two save
paths write; `link` is the unique key). -/
structure GovernmentDocument where
  title : String := ""
  description : String := ""
  link : String := ""
  date_updated : Int := 0
  full_page_text : String := ""
  summary : String := ""
  is_animal_project : Bool := false
  is_intensive_farming : Bool := false
  animal_type : Option String := none
  animal_number : Option Int := none
  is_icpe : Bool := false
  prefecture_name : Option String := none
  prefecture_code : Option String := none
  region_name : Option String := none
deriving DecidableEq

/-- Result schema of the primary classification oracle
(`PrefectureDocumentSummary` in analysis.py). -/
structure DocumentInfo where
  summary : String
  is_animal_project : Bool
  animal_type : Option String
  animal_number : Option Int
deriving DecidableEq

/-- Raw (title, link, date) triple returned by the AI extraction oracle
before the validation loop (`ArretePrefectoral` in analysis.py). -/
structure RawArrete where
  title : String
  link : String
  date_updated : String
deriving DecidableEq

/-- One `a.fr-link--download` element of a multi-document page as the
deterministic extractor sees it: its `href`, the text of its
`span.fr-link__detail` child when present, and its full stripped text. -/
structure DownloadLink where
  href : String
  detail : Option String
  text : String
deriving DecidableEq

/-- The persisted store: Django table of `GovernmentDocument` rows, in
query order. -/
abbrev Store := List GovernmentDocument

/-- `GovernmentDocument.objects.filter(link=l).first()`. -/
def findByLink (st : Store) (l : String) : Option GovernmentDocument :=
  st.find? (fun d => d.link == l)

/-- `GovernmentDocument.objects.filter(link=l, date_updated=t).first()`. -/
def findByLinkAndDate (st : Store) (l : String) (t : Int) : Option GovernmentDocument :=
  st.find? (fun d => d.link == l && d.date_updated == t)

/-- `existing.delete()` where `existing` is the first row matching `l`. -/
def eraseFirstByLink (st : Store) (l : String) : Store :=
  match st with
  | [] => []
  | d :: rest => if d.link == l then rest else d :: eraseFirstByLink rest l

/-- `existing.save()` after mutating fields: replace the first row
matching `l` with the updated row. -/
def replaceFirstByLink (st : Store) (l : String) (d' : GovernmentDocument) : Store :=
  match st with
  | [] => []
  | d :: rest => if d.link == l then d' :: rest else d :: replaceFirstByLink rest l d'

/-- `doc.save()` for a fresh row: insert it into the table. -/
def insertDoc (st : Store) (d : GovernmentDocument) : Store := st ++ [d]

/-- The dedup invariant of models.py (`link` carries `unique=True`): no
two rows share a link. -/
def UniqueLinks (st : Store) : Prop :=
  st.Pairwise (fun a b => a.link ≠ b.link)

/-- External collaborators and ambient state of one `save_to_database`
run: the clock, the lookback window, the negative-keyword table, the
prefecture attribution resolved for the domain, and the network/oracle
functions.  `fetch_page_text` returns `none` when the fetch raises;
`extract_text_from_pdf` returns `""` on failure (it catches internally). -/
structure Env where
  now : Int
  days_limit : Int
  negative_keywords : List String
  pref_name : Option String
  pref_code : Option String
  region_name : Option String
  fetch_page_text : String → Option String
  extract_text_from_pdf : String → String
  soup : String → List DownloadLink
  ai_arretes : String → List RawArrete
  doc_info : String → DocumentInfo
  intensive_check : String → Bool
  pdf_links_on_page : String → List String

/-- Python truthiness of an optional string (`None` and `""` are falsy). -/
def optTruthy : Option String → Bool
  | none => false
  | some s => s ≠ ""

/-! ## Keyword predicates -/

/-- analysis.py `contains_negative_keywords`: lowercase `f"{title} {description}"`
and test each non-empty configured keyword (lowercased on load) as a
substring. -/
def contains_negative_keywords (keywords : List String) (title description : String) : Bool :=
  let text := lowerList (title ++ " " ++ description).data
  keywords.any (fun kw => kw ≠ "" && containsSub (lowerList kw.data) text)

/-- scraper.py `contains_negative_keywords` (legacy path): same test but
without the non-empty filter on keywords. -/
def scraper_contains_negative_keywords (keywords : List String) (title description : String) : Bool :=
  let text := lowerList (title ++ " " ++ description).data
  keywords.any (fun kw => containsSub (lowerList kw.data) text)

/-- scraper.py `icpe_keywords` literal list. -/
def icpeKeywords : List String :=
  ["icpe", "installations classées", "installation classée", "déclaration icpe",
   "autorisation environnementale", "régime d'autorisation", "régime d'enregistrement",
   "régime de déclaration", "rubriques des activités", "nomenclature des installations",
   "code de l'environnement", "déclaration initiale dicpe", "dicpe"]

/-- scraper.py `contains_icpe_keywords`. -/
def contains_icpe_keywords (text : String) : Bool :=
  if text = "" then false
  else icpeKeywords.any (fun kw => containsSub kw.data (lowerList text.data))

/-! ## Multi-document page detection (analysis.py) -/

/-- The `exact_matches` table of `detect_multi_document_page`. -/
def multiDocExactMatches : List String :=
  ["Décisions", "Divers", "Autorisations administratives", "Arrêtés d'autorisation",
   "Enregistrement", "Consultations", "Les ICPE soumises à enregistrement"]

/-- Is the stripped title exactly `(19|20)\d{2}`? -/
def isYearTitle (t : String) : Bool :=
  match t.data with
  | [a, b, c, d] =>
    ((a = '1' ∧ b = '9') ∨ (a = '2' ∧ b = '0')) ∧ c.isDigit ∧ d.isDigit
  | _ => false

/-- Is the stripped title exactly `Année (19|20)\d{2}`?  Returns the year
text on success. -/
def anneeYearTitle (t : String) : Option String :=
  match t.data with
  | 'A' :: 'n' :: 'n' :: 'é' :: 'e' :: ' ' :: rest =>
    if isYearTitle ⟨rest⟩ then some ⟨rest⟩ else none
  | _ => none

/-- analysis.py `detect_multi_document_page`. -/
def detect_multi_document_page (title : String) : Option String :=
  if title = "" then none
  else
    let ts := strTrim title
    if multiDocExactMatches.contains ts then some ts
    else if strContains ts "Preuves de dépôt" then some "Preuves de dépôt"
    else if strContains ts "Preuves de dépôts" then some "Preuves de dépôts"
    else if isYearTitle ts then some ("Year_" ++ ts)
    else
      match anneeYearTitle ts with
      | some y => some ("Année_" ++ y)
      | none => none

example : detect_multi_document_page "2024" = some "Year_2024" := by decide

example : detect_multi_document_page "Année 2023" = some "Année_2023" := by decide

example : detect_multi_document_page " Décisions " = some "Décisions" := by decide

example : detect_multi_document_page "Arrêté du 3 mai" = none := by decide

/-! ## Deterministic multi-document extraction (analysis.py) -/

/-- Date recovery for one download link, in source order: the
`DD/MM/YYYY` regex over the `fr-link__detail` span text, then the
`YYYY-MM-DD` regex over the href (converted), then the same regex over the
partially cleaned title. -/
def recoverDateStr (el : DownloadLink) (title0 : String) : Option (List Char) :=
  match searchDDMMYYYY (el.detail.getD "").data with
  | some d => some d
  | none =>
    match searchYYYYMMDD el.href.data with
    | some ymd => some (ymdToSlashed ymd)
    | none =>
      match searchYYYYMMDD title0.data with
      | some ymd => some (ymdToSlashed ymd)
      | none => none

/-- Title before the final regex cleanups: strip the detail-span text out
of the link text, then the `Télécharger` prefix (both via `str.replace`
plus `strip`). -/
def preTitleOf (el : DownloadLink) : String :=
  let detailText := el.detail.getD ""
  let lt :=
    if detailText ≠ "" then strTrim ⟨removeAllList detailText.data el.text.data⟩
    else el.text
  strTrim ⟨removeAllList "Télécharger".data lt.data⟩

/-- Final title cleanup: drop trailing `PDF`/`DOCX`/`ODT` tokens, file
sizes and dates, then strip. -/
def cleanTitle (title0 : String) : String :=
  let t1 := removeTokenSuffixCI "pdf".data title0.data
  let t2 := removeTokenSuffixCI "docx".data t1
  let t3 := removeTokenSuffixCI "odt".data t2
  let t4 := removeSizeSuffix t3
  let t5 := removeDateSuffix t4
  strTrim ⟨t5⟩

/-- Processing of one download link inside
`extract_arretes_prefectoraux_deterministic`: skip empty hrefs, make the
link absolute, recover a date (skip the link when none is found), clean
the title (skip when it comes out empty), and build the `ScrapedCard`
whose metadata stores the date under `fr-card__detail`. -/
def extractDownloadLink (page_url : String) (el : DownloadLink) : Option ScrapedCard :=
  if el.href = "" then none
  else
    let absolute_link := if strStartsWith el.href "http" then el.href else urljoin page_url el.href
    let title0 := preTitleOf el
    match recoverDateStr el title0 with
    | none => none
    | some dateChars =>
      let date_str : String := ⟨dateChars⟩
      let title := cleanTitle title0
      if title = "" then none
      else
        some { title := title, link := absolute_link, description := "",
               date_label := date_str,
               metadata := [("fr-card__detail", [date_str])],
               html_content := none }

/-- analysis.py `extract_arretes_prefectoraux_deterministic`, over the
download-link elements the page's soup yields. -/
def extract_arretes_prefectoraux_deterministic
    (soup : List DownloadLink) (page_url : String) : List ScrapedCard :=
  soup.filterMap (extractDownloadLink page_url)

/-! ## AI-assisted extraction fallback (analysis.py) -/

/-- Python `s.rstrip('/')`. -/
def rstripSlash (s : String) : String :=
  ⟨(s.data.reverse.dropWhile (· = '/')).reverse⟩

/-- Validation of one oracle triple inside
`extract_arretes_prefectoraux_from_page_ai`: non-empty title and link, the
link must differ from the page URL (also with trailing slashes stripped),
then absolutization and the same check again. -/
def validateArrete (page_url : String) (a : RawArrete) : Option ScrapedCard :=
  if a.title = "" ∨ strTrim a.title = "" then none
  else if a.link = "" ∨ strTrim a.link = "" then none
  else if a.link = page_url ∨ rstripSlash a.link = rstripSlash page_url then none
  else
    let link := if strStartsWith a.link "http" then a.link else urljoin page_url a.link
    if link = page_url ∨ rstripSlash link = rstripSlash page_url then none
    else
      some { title := a.title, link := link, description := "",
             date_label := a.date_updated,
             metadata := [("fr-card__detail", [a.date_updated])],
             html_content := none }

/-- analysis.py `extract_arretes_prefectoraux_from_page_ai`: the oracle's
raw triples filtered through the validation loop. -/
def extract_arretes_prefectoraux_from_page_ai
    (page_url : String) (raw : List RawArrete) : List ScrapedCard :=
  raw.filterMap (validateArrete page_url)

/-! ## Conditional enrichment (analysis.py, intensive-farming branch) -/

/-- Hard cap on each appended PDF text chunk (`PER_PDF_CHAR_LIMIT`). -/
def PER_PDF_CHAR_LIMIT : Nat := 200000

/-- Total budget across all appended PDFs (`TOTAL_PDF_CHAR_BUDGET`). -/
def TOTAL_PDF_CHAR_BUDGET : Nat := 400000

/-- Worker for `samplePdfs`: `seen` and `pdf_sample` coincide (the code
adds to both together), kept in reverse order. -/
def samplePdfsAux : List String → List String → List String
  | [], acc => acc.reverse
  | u :: rest, acc =>
    let uNorm := strTrim u
    if uNorm = "" ∨ acc.contains uNorm then samplePdfsAux rest acc
    else
      let acc' := uNorm :: acc
      if acc'.length ≥ 3 then acc'.reverse else samplePdfsAux rest acc'

/-- The dedup-and-cap loop over `linked_pdfs`: keep the first (at most
three) distinct non-empty stripped URLs. -/
def samplePdfs (linked_pdfs : List String) : List String := samplePdfsAux linked_pdfs []

/-- Python `if len(s) > n: s = s[:n]` — truncate a text to `n` characters. -/
def truncateTo (s : String) (n : Nat) : String :=
  if s.length > n then ⟨s.data.take n⟩ else s

/-- The extraction loop over the sampled PDFs: stop once the total budget
is reached, skip failed/empty extractions, truncate each text to the
per-PDF cap and then to the remaining budget. -/
def appendPdfTexts (env : Env) : List String → Nat → List String
  | [], _ => []
  | pdf_url :: rest, total_appended =>
    if total_appended ≥ TOTAL_PDF_CHAR_BUDGET then []
    else
      let pdf_text := env.extract_text_from_pdf pdf_url
      if pdf_text = "" then appendPdfTexts env rest total_appended
      else
        let t1 := truncateTo pdf_text PER_PDF_CHAR_LIMIT
        let remaining := TOTAL_PDF_CHAR_BUDGET - total_appended
        if remaining = 0 then []
        else
          let t2 := truncateTo t1 remaining
          t2 :: appendPdfTexts env rest (total_appended + t2.length)

/-- The enriched corpus handed back to the oracle: page text and appended
PDF texts with the frame markers, joined by blank lines. -/
def buildEnrichedText (full_page_text : String) (appended_texts : List String) : String :=
  String.intercalate "\n\n"
    ["==== PAGE TEXT START ====", full_page_text, "==== PAGE TEXT END ====",
     "==== LINKED PDF TEXT START ====",
     String.intercalate "\n\n==== NEXT PDF ====\n\n" appended_texts,
     "==== LINKED PDF TEXT END ===="]

/-! ## The sync engine (analysis.py `save_to_database`) -/

/-- Observable outcome of a (partial) run: the resulting store, the
create/update/delete counters, how many full-text fetches and oracle calls
were made, the rows written (created or updated, in order), and the pages
on which the AI-assisted extraction fallback was invoked. -/
structure RunResult where
  store : Store
  creates : Nat
  updates : Nat
  deletes : Nat
  fetches : Nat
  classifies : Nat
  written : List GovernmentDocument
  aiPages : List String
deriving DecidableEq

/-- A run that leaves the store `st` untouched and performs nothing. -/
def RunResult.noop (st : Store) : RunResult :=
  { store := st, creates := 0, updates := 0, deletes := 0, fetches := 0,
    classifies := 0, written := [], aiPages := [] }

/-- Sequencing of two run segments (the second already starts from the
first one's store). -/
def RunResult.seq (r1 r2 : RunResult) : RunResult :=
  { store := r2.store, creates := r1.creates + r2.creates,
    updates := r1.updates + r2.updates, deletes := r1.deletes + r2.deletes,
    fetches := r1.fetches + r2.fetches, classifies := r1.classifies + r2.classifies,
    written := r1.written ++ r2.written, aiPages := r1.aiPages ++ r2.aiPages }

/-- Date assigned to a card: parsed from the joined `fr-card__detail`
metadata texts when that key is present, else `now()`. -/
def cardDate (env : Env) (card : ScrapedCard) : Int :=
  match card.metadata.lookup "fr-card__detail" with
  | some texts => parse_date_from_detail (String.intercalate " " texts) env.now
  | none => env.now

/-- Pure part of `cardDate`: `some` exactly when the detail text parses
via the date patterns (so the result does not depend on the clock). -/
def cardDatePure (card : ScrapedCard) : Option Int :=
  match card.metadata.lookup "fr-card__detail" with
  | some texts => parseDetailPure (String.intercalate " " texts)
  | none => none

/-- Is the link fetched as a PDF (`card.link.lower().endswith('.pdf')`)? -/
def isPdfLink (link : String) : Bool := strEndsWith (strLower link) ".pdf"

/-- Full-text fetch for the classification step: PDF extraction (total,
`""` on failure) or page fetch (`none` when the request raises, which
skips the card through the per-item `except`). -/
def fullPageTextOf (env : Env) (link : String) : Option String :=
  if isPdfLink link then some (env.extract_text_from_pdf link)
  else env.fetch_page_text link

/-- Page text of a multi-document page: same choice of fetcher, but here
an empty text also aborts (`if not page_text: continue`). -/
def multiPageText (env : Env) (link : String) : Option String :=
  match fullPageTextOf env link with
  | none => none
  | some t => if t = "" then none else some t

/-- The classification tail of one regular card: full-text fetch, primary
oracle call, intensive-farming check, conditional enrichment, and the
final create-or-update decision.  `existing` is the row found for
`card.link` before the filters ran. -/
def stepRegular (env : Env) (card : ScrapedCard) (date_updated : Int)
    (existing : Option GovernmentDocument) (st : Store) : RunResult :=
  if date_updated < env.now - env.days_limit then RunResult.noop st
  else if (existing.map (·.date_updated == date_updated)).getD false then RunResult.noop st
  else
    match fullPageTextOf env card.link with
    | none => { RunResult.noop st with fetches := 1 }
    | some full_page_text =>
      let info := env.doc_info full_page_text
      let is_intensive_farming :=
        if info.is_animal_project then env.intensive_check info.summary else false
      let classifies0 := if info.is_animal_project then 2 else 1
      let refined :=
        if is_intensive_farming then
          let linked_pdfs := env.pdf_links_on_page card.link
          if linked_pdfs.isEmpty then none
          else
            let appended_texts := appendPdfTexts env (samplePdfs linked_pdfs) 0
            if appended_texts.isEmpty then none
            else some (env.doc_info (buildEnrichedText full_page_text appended_texts))
        else none
      let finalInfo := refined.getD info
      let classifies1 := if refined.isSome then classifies0 + 1 else classifies0
      match existing with
      | some ex =>
        let changed :=
          ex.title != card.title || ex.description != card.description ||
          ex.date_updated != date_updated ||
          (optTruthy env.pref_name && (ex.prefecture_name != env.pref_name)) ||
          (optTruthy env.pref_code && (ex.prefecture_code != env.pref_code)) ||
          (optTruthy env.region_name && (ex.region_name != env.region_name))
        if changed then
          let newEx : GovernmentDocument :=
            { ex with
              title := card.title,
              description := card.description,
              date_updated := date_updated,
              full_page_text := full_page_text,
              summary := finalInfo.summary,
              is_animal_project := finalInfo.is_animal_project,
              is_intensive_farming := is_intensive_farming,
              prefecture_name := if optTruthy env.pref_name then env.pref_name else ex.prefecture_name,
              prefecture_code := if optTruthy env.pref_code then env.pref_code else ex.prefecture_code,
              region_name := if optTruthy env.region_name then env.region_name else ex.region_name }
          { store := replaceFirstByLink st card.link newEx, creates := 0, updates := 1,
            deletes := 0, fetches := 1, classifies := classifies1,
            written := [newEx], aiPages := [] }
        else
          { RunResult.noop st with fetches := 1, classifies := classifies1 }
      | none =>
        let doc : GovernmentDocument :=
          { title := card.title, description := card.description, link := card.link,
            date_updated := date_updated, full_page_text := full_page_text,
            summary := finalInfo.summary,
            is_animal_project := finalInfo.is_animal_project,
            is_intensive_farming := is_intensive_farming,
            animal_type := finalInfo.animal_type,
            animal_number := finalInfo.animal_number,
            prefecture_name := env.pref_name, prefecture_code := env.pref_code,
            region_name := env.region_name }
        { store := insertDoc st doc, creates := 1, updates := 0, deletes := 0,
          fetches := 1, classifies := classifies1, written := [doc], aiPages := [] }

/-- Processing of one scraped card: lookup, negative-keyword filter
(delete or skip), multi-document expansion (with `recurse` standing for
the recursive `save_to_database` call on the extracted sub-documents), or
the regular classification tail. -/
def processCard (env : Env) (recurse : List ScrapedCard → Store → RunResult)
    (card : ScrapedCard) (st : Store) : RunResult :=
  let date_updated := cardDate env card
  let existing := findByLink st card.link
  if contains_negative_keywords env.negative_keywords card.title card.description then
    match existing with
    | some _ =>
      { RunResult.noop (eraseFirstByLink st card.link) with deletes := 1 }
    | none => RunResult.noop st
  else
    match detect_multi_document_page card.title with
    | some _ =>
      match multiPageText env card.link with
      | none => { RunResult.noop st with fetches := 1 }
      | some _ =>
        let det := extract_arretes_prefectoraux_deterministic (env.soup card.link) card.link
        if det.isEmpty then
          let subs := extract_arretes_prefectoraux_from_page_ai card.link (env.ai_arretes card.link)
          if subs.isEmpty then
            { RunResult.noop st with fetches := 1, aiPages := [card.link] }
          else
            let r := recurse subs st
            { r with fetches := r.fetches + 1, aiPages := card.link :: r.aiPages }
        else
          let r := recurse det st
          { r with fetches := r.fetches + 1 }
    | none => stepRegular env card date_updated existing st

/-- The per-card loop of `save_to_database` for a fixed recursion
behaviour on multi-document expansions. -/
def saveCardsGo (env : Env) (recurse : List ScrapedCard → Store → RunResult) :
    List ScrapedCard → Store → RunResult
  | [], st => RunResult.noop st
  | card :: rest, st =>
    let r1 := processCard env recurse card st
    RunResult.seq r1 (saveCardsGo env recurse rest r1.store)

/-- analysis.py `save_to_database`.  The numeric argument bounds the
recursion depth of multi-document expansion (Python recurses without
bound; with exhausted budget the expansion degenerates to a skip, and
every theorem below holds for every budget). -/
def save_to_database (env : Env) : Nat → List ScrapedCard → Store → RunResult
  | 0 => saveCardsGo env (fun _ st => RunResult.noop st)
  | fuel + 1 => saveCardsGo env (save_to_database env fuel)

/-- analysis.py `remove_documents_with_negative_keywords`: delete every
row whose title/description contains a configured keyword. -/
def remove_documents_with_negative_keywords (env : Env) (st : Store) : Store :=
  st.filter (fun d => !contains_negative_keywords env.negative_keywords d.title d.description)

/-- analysis.py `scrape_all_results` for already-fetched pages of cards:
each card is pushed through `save_to_database` individually (which equals
one pass over the concatenation), then the negative-keyword sweep runs. -/
def scrape_all_results (env : Env) (fuel : Nat) (pages : List (List ScrapedCard))
    (st : Store) : RunResult :=
  let r := save_to_database env fuel pages.flatten st
  let swept := remove_documents_with_negative_keywords env r.store
  { r with store := swept, deletes := r.deletes + (r.store.length - swept.length) }

/-! ## Result-card extraction (scraper.py `extract_card_data`) -/

/-- One `div.fr-card` element as the extractor queries it: the first
matching child of each kind (`none` when the child is absent; the string
is its stripped text, or the `href` for the anchor). -/
structure CardElement where
  h3 : Option String := none
  h2 : Option String := none
  h1 : Option String := none
  anchorHref : Option String := none
  pText : Option String := none
  descDivText : Option String := none
  timeText : Option String := none
  dateSpanText : Option String := none
  titleClassTexts : List String := []
  contentClassTexts : List String := []
  detailClassTexts : List String := []
  html : String := ""
deriving DecidableEq

/-- The dictionary `extract_card_data` builds: a field is `none` exactly
when the corresponding key is absent. -/
structure CardData where
  title : Option String := none
  link : Option String := none
  description : Option String := none
  date : Option String := none
  metadata : Option (List (String × List String)) := none
  html_content : Option String := none
deriving DecidableEq

/-- Python truthiness of the `card_data` dict: is any key present? -/
def CardData.isTruthy (c : CardData) : Bool :=
  c.title.isSome || c.link.isSome || c.description.isSome || c.date.isSome ||
  c.metadata.isSome || c.html_content.isSome

/-- scraper.py `extract_card_data`: first-available title (h3, h2, h1),
first link (absolutized against the domain when relative), first
description (p, div.fr-card__desc), date (time, span.date), metadata for
the three known classes, and always the raw HTML snapshot. -/
def extract_card_data (card : CardElement) (domain : Option String) : CardData :=
  let title := card.h3 <|> card.h2 <|> card.h1
  let link :=
    match card.anchorHref with
    | none => none
    | some href =>
      if href ≠ "" ∧ ¬strStartsWith href "http" ∧ optTruthy domain then
        some ("https://www." ++ domain.getD "" ++ href)
      else some href
  let description := card.pText <|> card.descDivText
  let date := card.timeText <|> card.dateSpanText
  let meta :=
    (if card.titleClassTexts ≠ [] then [("fr-card__title", card.titleClassTexts)] else []) ++
    (if card.contentClassTexts ≠ [] then [("fr-card__content", card.contentClassTexts)] else []) ++
    (if card.detailClassTexts ≠ [] then [("fr-card__detail", card.detailClassTexts)] else [])
  { title := title, link := link, description := description, date := date,
    metadata := if meta ≠ [] then some meta else none,
    html_content := some card.html }

/-- The card loop of `scrape_government_site`: extract every `fr-card`
element and keep the results the `if card_data:` test accepts. -/
def scrape_government_site_cards (cards : List CardElement) (domain : Option String) :
    List CardData :=
  (cards.map (extract_card_data · domain)).filter CardData.isTruthy

/-! ## Legacy sync path (scraper.py `save_to_database`) -/

/-- scraper.py `check_page_for_icpe`: fetch the page and scan its text;
any exception yields `False`. -/
def check_page_for_icpe (env : Env) (url : String) : Bool :=
  match env.fetch_page_text url with
  | none => false
  | some t => contains_icpe_keywords t

/-- scraper.py `check_pdfs_for_icpe`: first PDF whose extracted text is
non-empty and contains an ICPE keyword wins. -/
def check_pdfs_for_icpe (env : Env) (pdf_urls : List String) : Bool :=
  pdf_urls.any (fun u =>
    let t := env.extract_text_from_pdf u
    t ≠ "" && contains_icpe_keywords t)

/-- The three-stage ICPE decision of scraper.py `save_to_database`:
title+description, then the full page, then the PDFs linked from it. -/
def computeIsIcpe (env : Env) (title description link : String) : Bool :=
  if contains_icpe_keywords (strTrim (title ++ " " ++ description)) then true
  else if link ≠ "" then
    if check_page_for_icpe env link then true
    else
      let pdf_links := env.pdf_links_on_page link
      if ¬pdf_links.isEmpty then check_pdfs_for_icpe env pdf_links else false
  else false

/-- One item of scraper.py `save_to_database` (the legacy path): date from
metadata, negative-keyword delete/skip, skip when a row with the same link
and date exists, ICPE classification, then update-or-create.  Note this
path has no freshness check. -/
def scraperProcessItem (env : Env) (item : CardData) (st : Store) : RunResult :=
  let title := item.title.getD ""
  let description := item.description.getD ""
  let link := item.link.getD ""
  let date_updated :=
    match item.metadata.bind (·.lookup "fr-card__detail") with
    | some texts => scraper_parse_date_from_detail (String.intercalate " " texts) env.now
    | none => env.now
  if scraper_contains_negative_keywords env.negative_keywords title description then
    match findByLink st link with
    | some _ => { RunResult.noop (eraseFirstByLink st link) with deletes := 1 }
    | none => RunResult.noop st
  else if (findByLinkAndDate st link date_updated).isSome then RunResult.noop st
  else
    let is_icpe := computeIsIcpe env title description link
    match findByLink st link with
    | some ex =>
      let newEx : GovernmentDocument :=
        { ex with
          title := title,
          description := description,
          date_updated := date_updated,
          is_icpe := is_icpe,
          prefecture_name := if optTruthy env.pref_name then env.pref_name else ex.prefecture_name,
          prefecture_code := if optTruthy env.pref_code then env.pref_code else ex.prefecture_code,
          region_name := if optTruthy env.region_name then env.region_name else ex.region_name }
      { store := replaceFirstByLink st link newEx, creates := 0, updates := 1,
        deletes := 0, fetches := 0, classifies := 0, written := [newEx], aiPages := [] }
    | none =>
      let doc : GovernmentDocument :=
        { title := title, description := description, link := link,
          date_updated := date_updated, is_icpe := is_icpe,
          prefecture_name := env.pref_name, prefecture_code := env.pref_code,
          region_name := env.region_name }
      { store := insertDoc st doc, creates := 1, updates := 0, deletes := 0,
        fetches := 0, classifies := 0, written := [doc], aiPages := [] }

/-- scraper.py `save_to_database` over a list of extracted items. -/
def scraper_save_to_database (env : Env) : List CardData → Store → RunResult
  | [], st => RunResult.noop st
  | item :: rest, st =>
    let r1 := scraperProcessItem env item st
    RunResult.seq r1 (scraper_save_to_database env rest r1.store)

/-! ## HTTP retry loop (scraper.py `make_request_with_retry`) -/

/-- Outcome of one `session.get` attempt: a response with its status
code, or one of the exception classes the retry loop distinguishes. -/
inductive FetchOutcome where
  | resp (status : Nat)
  | timeout
  | connError
  | otherError
deriving DecidableEq

/-- Failure surfaced by `make_request_with_retry` to its caller. -/
inductive FetchFailure where
  | timeout
  | connError
  | http (status : Nat)
  | other
  | exhausted
deriving DecidableEq

/-- Did `raise_for_status` raise for this status code? -/
def raisesForStatus (status : Nat) : Bool := 400 ≤ status ∧ status < 600

/-- The transient classes the loop retries to exhaustion: timeout,
connection error, HTTP 429, and the catch-all `except Exception`. -/
def transientOutcome : FetchOutcome → Bool
  | .resp status => status = 429
  | .timeout => true
  | .connError => true
  | .otherError => true

/-- The `random.uniform(1, 3) * (2 ** attempt)` backoff, stripped of its
random factor: the deterministic exponential part. -/
def retryDelayFactor (attempt : Nat) : Nat := 2 ^ attempt

/-- The attempt loop of `make_request_with_retry`.  `attemptsLeft` starts
at `max_retries + 1`; the success and failure payloads carry the number of
attempts performed.  A non-429 `HTTPError` re-raises immediately; the
other exception classes re-raise only on the last attempt. -/
def retryLoop (outcome : Nat → FetchOutcome) : Nat → Nat → Except (FetchFailure × Nat) (Nat × Nat)
  | 0, attempt => .error (.exhausted, attempt)
  | attemptsLeft + 1, attempt =>
    let isLast := attemptsLeft = 0
    match outcome attempt with
    | .resp status =>
      if ¬raisesForStatus status then .ok (status, attempt + 1)
      else if status = 429 then
        if isLast then .error (.http 429, attempt + 1)
        else retryLoop outcome attemptsLeft (attempt + 1)
      else .error (.http status, attempt + 1)
    | .timeout =>
      if isLast then .error (.timeout, attempt + 1)
      else retryLoop outcome attemptsLeft (attempt + 1)
    | .connError =>
      if isLast then .error (.connError, attempt + 1)
      else retryLoop outcome attemptsLeft (attempt + 1)
    | .otherError =>
      if isLast then .error (.other, attempt + 1)
      else retryLoop outcome attemptsLeft (attempt + 1)

/-- scraper.py `make_request_with_retry` with `max_retries` retries:
`max_retries + 1` attempts in total. -/
def make_request_with_retry (outcome : Nat → FetchOutcome) (max_retries : Nat) :
    Except (FetchFailure × Nat) (Nat × Nat) :=
  retryLoop outcome (max_retries + 1) 0

example : make_request_with_retry (fun _ => .resp 200) 3 = .ok (200, 1) := rfl

example : make_request_with_retry (fun _ => .timeout) 3 = .error (.timeout, 4) := rfl

example : make_request_with_retry (fun _ => .resp 500) 3 = .error (.http 500, 1) := rfl

/-! ## Store-operation lemmas -/

theorem eraseFirstByLink_sublist (st : Store) (l : String) :
    (eraseFirstByLink st l).Sublist st := by
  induction st with
  | nil => simp [eraseFirstByLink]
  | cons d rest ih =>
    by_cases h : d.link == l
    · simp [eraseFirstByLink, h]
    · simpa [eraseFirstByLink, h] using ih.cons₂ d

theorem uniqueLinks_erase {st : Store} (l : String) (h : UniqueLinks st) :
    UniqueLinks (eraseFirstByLink st l) :=
  (h.sublist (eraseFirstByLink_sublist st l))

theorem mem_replaceFirstByLink {st : Store} {l : String} {d' b : GovernmentDocument}
    (hb : b ∈ replaceFirstByLink st l d') : b ∈ st ∨ b = d' := by
  induction st with
  | nil => simp [replaceFirstByLink] at hb
  | cons d rest ih =>
    by_cases h : d.link == l
    · simp [replaceFirstByLink, h] at hb
      rcases hb with hb | hb
      · right; exact hb
      · left; exact List.mem_cons_of_mem _ hb
    · simp [replaceFirstByLink, h] at hb
      rcases hb with hb | hb
      · left; simp [hb]
      · rcases ih hb with hb' | hb'
        · left; exact List.mem_cons_of_mem _ hb'
        · right; exact hb'

theorem uniqueLinks_replace {st : Store} {l : String} {d' : GovernmentDocument}
    (h : UniqueLinks st) (hl : d'.link = l) :
    UniqueLinks (replaceFirstByLink st l d') := by
  induction st with
  | nil => simpa [replaceFirstByLink] using h
  | cons d rest ih =>
    rcases List.pairwise_cons.mp h with ⟨hd, hrest⟩
    by_cases hdl : d.link == l
    · have hdl' : d.link = l := by simpa using hdl
      simp only [replaceFirstByLink, hdl, if_true]
      refine List.pairwise_cons.mpr ⟨?_, hrest⟩
      intro b hb
      rw [hl, ← hdl']
      exact hd b hb
    · simp only [replaceFirstByLink, hdl, if_false]
      have hne : d.link ≠ l := by simpa using hdl
      refine List.pairwise_cons.mpr ⟨?_, ih hrest⟩
      intro b hb
      rcases mem_replaceFirstByLink hb with hb' | hb'
      · exact hd b hb'
      · rw [hb', hl]; exact hne

theorem uniqueLinks_insert {st : Store} {d : GovernmentDocument}
    (h : UniqueLinks st) (habs : findByLink st d.link = none) :
    UniqueLinks (insertDoc st d) := by
  have hall : ∀ x ∈ st, x.link ≠ d.link := by
    intro x hx
    have := List.find?_eq_none.mp habs x hx
    simpa using this
  refine List.pairwise_append.mpr ⟨h, List.pairwise_singleton _ _, ?_⟩
  intro a ha b hb
  simp only [List.mem_singleton] at hb
  subst hb
  exact hall a ha

theorem findByLink_erase_self {st : Store} (l : String) (h : UniqueLinks st) :
    findByLink (eraseFirstByLink st l) l = none := by
  induction st with
  | nil => simp [eraseFirstByLink, findByLink]
  | cons d rest ih =>
    rcases List.pairwise_cons.mp h with ⟨hd, hrest⟩
    by_cases hdl : d.link == l
    · have hdl' : d.link = l := by simpa using hdl
      simp only [eraseFirstByLink, hdl, if_true]
      apply List.find?_eq_none.mpr
      intro x hx
      have hxl : l ≠ x.link := hdl' ▸ hd x hx
      simp only [Bool.not_eq_true, beq_eq_false_iff_ne, ne_eq]
      exact fun hc => hxl hc.symm
    · have hdl0 : (d.link == l) = false := by simpa using hdl
      simp only [eraseFirstByLink, hdl, if_false, findByLink, List.find?, hdl0]
      exact ih hrest

theorem findByLink_erase_ne {st : Store} {l l' : String} (h : l' ≠ l) :
    findByLink (eraseFirstByLink st l) l' = findByLink st l' := by
  induction st with
  | nil => simp [eraseFirstByLink]
  | cons d rest ih =>
    by_cases hdl : d.link == l
    · have hdl' : d.link = l := by simpa using hdl
      have h2 : (d.link == l') = false := by
        simp only [beq_eq_false_iff_ne, ne_eq, hdl']
        exact fun hc => h hc.symm
      simp [eraseFirstByLink, hdl, findByLink, List.find?, h2]
    · have hdl0 : (d.link == l) = false := by simpa using hdl
      by_cases hdl2 : d.link == l'
      · simp [eraseFirstByLink, hdl, findByLink, List.find?, hdl2]
      · have hdl2' : (d.link == l') = false := by simpa using hdl2
        simp only [eraseFirstByLink, hdl, if_false, findByLink, List.find?, hdl2']
        exact ih

theorem findByLink_replace_self {st : Store} {l : String} {d' : GovernmentDocument}
    (hl : d'.link = l) (hsome : (findByLink st l).isSome) :
    findByLink (replaceFirstByLink st l d') l = some d' := by
  induction st with
  | nil => simp [findByLink] at hsome
  | cons d rest ih =>
    by_cases hdl : d.link == l
    · simp [replaceFirstByLink, hdl, findByLink, List.find?, hl]
    · have hdl0 : (d.link == l) = false := by simpa using hdl
      simp only [replaceFirstByLink, hdl, if_false, findByLink, List.find?, hdl0]
      apply ih
      simpa [findByLink, List.find?, hdl0] using hsome

theorem findByLink_replace_ne {st : Store} {l l' : String} {d' : GovernmentDocument}
    (h : l' ≠ l) (hl : d'.link = l) :
    findByLink (replaceFirstByLink st l d') l' = findByLink st l' := by
  induction st with
  | nil => simp [replaceFirstByLink]
  | cons d rest ih =>
    by_cases hdl : d.link == l
    · have hd' : (d'.link == l') = false := by
        simp only [beq_eq_false_iff_ne, ne_eq, hl]
        exact fun hc => h hc.symm
      have hd2 : (d.link == l') = false := by
        have hdl' : d.link = l := by simpa using hdl
        simp only [beq_eq_false_iff_ne, ne_eq, hdl']
        exact fun hc => h hc.symm
      simp [replaceFirstByLink, hdl, findByLink, List.find?, hd', hd2]
    · simp only [replaceFirstByLink, hdl, if_false, findByLink, List.find?]
      by_cases hdl2 : d.link == l'
      · simp [hdl2]
      · have hdl2' : (d.link == l') = false := by simpa using hdl2
        simp only [hdl2']
        exact ih

theorem findByLink_insert_self {st : Store} {d : GovernmentDocument}
    (habs : findByLink st d.link = none) :
    findByLink (insertDoc st d) d.link = some d := by
  induction st with
  | nil => simp [insertDoc, findByLink, List.find?]
  | cons x rest ih =>
    have hx : (x.link == d.link) = false := by
      have := List.find?_eq_none.mp habs x (List.mem_cons_self x rest)
      simpa using this
    simp only [insertDoc, List.cons_append, findByLink, List.find?, hx]
    apply ih
    simpa [findByLink, List.find?, hx] using habs

theorem findByLink_insert_ne {st : Store} {d : GovernmentDocument} {l' : String}
    (h : l' ≠ d.link) :
    findByLink (insertDoc st d) l' = findByLink st l' := by
  induction st with
  | nil =>
    have hd : (d.link == l') = false := by
      simp only [beq_eq_false_iff_ne, ne_eq]
      exact fun hc => h hc.symm
    simp [insertDoc, findByLink, List.find?, hd]
  | cons x rest ih =>
    by_cases hx : x.link == l'
    · simp [insertDoc, findByLink, List.find?, hx]
    · have hx' : (x.link == l') = false := by simpa using hx
      simp only [insertDoc, List.cons_append, findByLink, List.find?, hx']
      exact ih

/-! ## Uniqueness of `link` through every write path (claim C1 support) -/

theorem findByLink_some_link {st : Store} {l : String} {ex : GovernmentDocument}
    (h : findByLink st l = some ex) : ex.link = l := by
  have := List.find?_some h
  simpa using this

theorem stepRegular_unique (env : Env) (card : ScrapedCard) (date : Int) (st : Store)
    (h : UniqueLinks st) :
    UniqueLinks (stepRegular env card date (findByLink st card.link) st).store := by
  rw [stepRegular]
  split
  · exact h
  · split
    · exact h
    · cases hft : fullPageTextOf env card.link with
      | none => exact h
      | some fullText =>
        simp only []
        cases hfind : findByLink st card.link with
        | some ex =>
          simp only []
          split
          · have hexl := findByLink_some_link hfind
            exact uniqueLinks_replace h hexl
          · exact h
        | none =>
          apply uniqueLinks_insert h
          exact hfind

theorem processCard_unique (env : Env) (recurse : List ScrapedCard → Store → RunResult)
    (card : ScrapedCard) (st : Store)
    (hrec : ∀ cs st', UniqueLinks st' → UniqueLinks (recurse cs st').store)
    (h : UniqueLinks st) :
    UniqueLinks (processCard env recurse card st).store := by
  simp only [processCard]
  split
  · split
    · exact uniqueLinks_erase _ h
    · exact h
  · split
    · split
      · exact h
      · split
        · split
          · exact h
          · exact hrec _ _ h
        · exact hrec _ _ h
    · exact stepRegular_unique env card _ st h

theorem saveCardsGo_unique (env : Env) (recurse : List ScrapedCard → Store → RunResult)
    (cards : List ScrapedCard) (st : Store)
    (hrec : ∀ cs st', UniqueLinks st' → UniqueLinks (recurse cs st').store)
    (h : UniqueLinks st) :
    UniqueLinks (saveCardsGo env recurse cards st).store := by
  induction cards generalizing st with
  | nil => simpa [saveCardsGo, RunResult.noop]
  | cons card rest ih =>
    simp only [saveCardsGo, RunResult.seq]
    exact ih _ (processCard_unique env recurse card st hrec h)

theorem save_to_database_unique (env : Env) (fuel : Nat) (cards : List ScrapedCard)
    (st : Store) (h : UniqueLinks st) :
    UniqueLinks (save_to_database env fuel cards st).store := by
  induction fuel generalizing cards st with
  | zero =>
    apply saveCardsGo_unique _ _ _ _ _ h
    intro cs st' h'
    exact h'
  | succ fuel ih =>
    apply saveCardsGo_unique _ _ _ _ _ h
    intro cs st' h'
    exact ih cs st' h'

theorem scrape_all_results_unique (env : Env) (fuel : Nat)
    (pages : List (List ScrapedCard)) (st : Store) (h : UniqueLinks st) :
    UniqueLinks (scrape_all_results env fuel pages st).store := by
  have hsave := save_to_database_unique env fuel pages.flatten st h
  simp only [scrape_all_results]
  exact hsave.sublist (List.filter_sublist _)

theorem scraperProcessItem_unique (env : Env) (item : CardData) (st : Store)
    (h : UniqueLinks st) :
    UniqueLinks (scraperProcessItem env item st).store := by
  simp only [scraperProcessItem]
  split
  · split
    · exact uniqueLinks_erase _ h
    · exact h
  · split
    · exact h
    · cases hfind : findByLink st (item.link.getD "") with
      | some ex =>
        simp only []
        have hexl := findByLink_some_link hfind
        exact uniqueLinks_replace h hexl
      | none =>
        apply uniqueLinks_insert h
        exact hfind

theorem scraper_save_to_database_unique (env : Env) (items : List CardData)
    (st : Store) (h : UniqueLinks st) :
    UniqueLinks (scraper_save_to_database env items st).store := by
  induction items generalizing st with
  | nil => simpa [scraper_save_to_database, RunResult.noop]
  | cons item rest ih =>
    simp only [scraper_save_to_database, RunResult.seq]
    exact ih _ (scraperProcessItem_unique env item st h)

/-! ## Sample concrete inputs for witnesses and counterexamples -/

/-- Benign sample environment: April 2024 clock, 30-day window, one
negative keyword, fixed prefecture attribution, all fetches succeed. -/
def sampleEnv : Env :=
  { now := mkTimestamp 20 4 2024, days_limit := 30,
    negative_keywords := ["formation"],
    pref_name := some "Morbihan", pref_code := some "56", region_name := some "Bretagne",
    fetch_page_text := fun _ => some "texte de la page",
    extract_text_from_pdf := fun _ => "texte du pdf",
    soup := fun _ => [],
    ai_arretes := fun _ => [],
    doc_info := fun _ =>
      { summary := "résumé", is_animal_project := false,
        animal_type := none, animal_number := none },
    intensive_check := fun _ => false,
    pdf_links_on_page := fun _ => [] }

/-- An ordinary dated card. -/
def sampleCard : ScrapedCard :=
  { title := "Avis d'enquête publique", link := "https://www.morbihan.gouv.fr/doc1",
    description := "élevage de volailles", date_label := "",
    metadata := [("fr-card__detail", ["Mis à jour le 17/04/2024"])],
    html_content := none }

/-- The same card as the legacy extractor's dictionary. -/
def sampleItem : CardData :=
  { title := some "Avis d'enquête publique", link := some "https://www.morbihan.gouv.fr/doc1",
    description := some "élevage de volailles", date := none,
    metadata := some [("fr-card__detail", ["Mis à jour le 17/04/2024"])],
    html_content := some "<div></div>" }

/-! ## Claim C1 -/

/-- Claim C1: the persisted store never holds two `GovernmentDocument`
rows with the same link — `link` is the unique key of models.py, and every
create/update/delete path (the analysis-module `save_to_database` with its
recursive multi-document expansion, the `scrape_all_results` orchestration
with its final sweep, and the legacy scraper-module `save_to_database`)
maps a store with pairwise-distinct links to a store with
pairwise-distinct links. -/
theorem claim_C1 (env : Env) (fuel : Nat) (cards : List ScrapedCard)
    (pages : List (List ScrapedCard)) (items : List CardData) (st : Store)
    (h : UniqueLinks st) :
    UniqueLinks (save_to_database env fuel cards st).store ∧
    UniqueLinks (scrape_all_results env fuel pages st).store ∧
    UniqueLinks (scraper_save_to_database env items st).store :=
  ⟨save_to_database_unique env fuel cards st h,
   scrape_all_results_unique env fuel pages st h,
   scraper_save_to_database_unique env items st h⟩

/-- Witness for C1 at a concrete run. -/
theorem claim_C1_witness :
    UniqueLinks ([] : Store) ∧
    (UniqueLinks (save_to_database sampleEnv 1 [sampleCard] []).store ∧
     UniqueLinks (scrape_all_results sampleEnv 1 [[sampleCard]] []).store ∧
     UniqueLinks (scraper_save_to_database sampleEnv [sampleItem] []).store) :=
  ⟨List.Pairwise.nil, claim_C1 sampleEnv 1 [sampleCard] [[sampleCard]] [sampleItem] []
    List.Pairwise.nil⟩

/-! ## Claim C3 -/

theorem seq_noop (r : RunResult) : RunResult.seq r (RunResult.noop r.store) = r := by
  simp [RunResult.seq, RunResult.noop]

theorem saveCardsGo_singleton (env : Env) (recurse : List ScrapedCard → Store → RunResult)
    (card : ScrapedCard) (st : Store) :
    saveCardsGo env recurse [card] st = processCard env recurse card st := by
  simp [saveCardsGo, seq_noop]

theorem processCard_negkw (env : Env) (recurse : List ScrapedCard → Store → RunResult)
    (card : ScrapedCard) (st : Store)
    (hc : contains_negative_keywords env.negative_keywords card.title card.description = true) :
    processCard env recurse card st =
      if (findByLink st card.link).isSome then
        { RunResult.noop (eraseFirstByLink st card.link) with deletes := 1 }
      else RunResult.noop st := by
  simp only [processCard, hc, if_true]
  cases hfind : findByLink st card.link <;> simp [hfind]

theorem save_single_negkw (env : Env) (fuel : Nat) (card : ScrapedCard) (st : Store)
    (hc : contains_negative_keywords env.negative_keywords card.title card.description = true) :
    save_to_database env fuel [card] st =
      if (findByLink st card.link).isSome then
        { RunResult.noop (eraseFirstByLink st card.link) with deletes := 1 }
      else RunResult.noop st := by
  cases fuel with
  | zero =>
    rw [save_to_database, saveCardsGo_singleton]
    exact processCard_negkw env _ card st hc
  | succ f =>
    rw [save_to_database, saveCardsGo_singleton]
    exact processCard_negkw env _ card st hc

theorem scraperProcessItem_negkw (env : Env) (item : CardData) (st : Store)
    (hi : scraper_contains_negative_keywords env.negative_keywords
      (item.title.getD "") (item.description.getD "") = true) :
    scraperProcessItem env item st =
      if (findByLink st (item.link.getD "")).isSome then
        { RunResult.noop (eraseFirstByLink st (item.link.getD "")) with deletes := 1 }
      else RunResult.noop st := by
  simp only [scraperProcessItem, hi, if_true]
  cases hfind : findByLink st (item.link.getD "") <;> simp [hfind]

theorem scraper_save_single_negkw (env : Env) (item : CardData) (st : Store)
    (hi : scraper_contains_negative_keywords env.negative_keywords
      (item.title.getD "") (item.description.getD "") = true) :
    scraper_save_to_database env [item] st =
      if (findByLink st (item.link.getD "")).isSome then
        { RunResult.noop (eraseFirstByLink st (item.link.getD "")) with deletes := 1 }
      else RunResult.noop st := by
  rw [scraper_save_to_database, scraper_save_to_database, seq_noop]
  exact scraperProcessItem_negkw env item st hi

/-- Claim C3: a card whose title+description contains a configured
negative keyword (case-insensitive substring) makes the sync engine delete
the existing persisted record with the same link when one exists and skip
the card otherwise; in neither case is a record created or updated for it.
Stated for both the analysis-module path and the legacy scraper-module
path. -/
theorem claim_C3 (env : Env) (fuel : Nat) (card : ScrapedCard) (st : Store)
    (item : CardData) (st' : Store)
    (hc : contains_negative_keywords env.negative_keywords card.title card.description = true)
    (hi : scraper_contains_negative_keywords env.negative_keywords
      (item.title.getD "") (item.description.getD "") = true) :
    ((save_to_database env fuel [card] st).creates = 0 ∧
     (save_to_database env fuel [card] st).updates = 0 ∧
     (save_to_database env fuel [card] st).store =
       (if (findByLink st card.link).isSome then eraseFirstByLink st card.link else st)) ∧
    ((scraper_save_to_database env [item] st').creates = 0 ∧
     (scraper_save_to_database env [item] st').updates = 0 ∧
     (scraper_save_to_database env [item] st').store =
       (if (findByLink st' (item.link.getD "")).isSome then
          eraseFirstByLink st' (item.link.getD "") else st')) := by
  rw [save_single_negkw env fuel card st hc, scraper_save_single_negkw env item st' hi]
  constructor
  · cases hfind : (findByLink st card.link).isSome <;> simp [hfind, RunResult.noop]
  · cases hfind : (findByLink st' (item.link.getD "")).isSome <;> simp [hfind, RunResult.noop]

/-- A negative-keyword card (keyword `formation`) and its legacy-path
dictionary form. -/
def negKwCard : ScrapedCard :=
  { title := "Formation des éleveurs bovins", link := "https://www.morbihan.gouv.fr/f1",
    description := "", date_label := "",
    metadata := [("fr-card__detail", ["Mis à jour le 17/04/2024"])],
    html_content := none }

/-- Legacy-path item for the C3 witness. -/
def negKwItem : CardData :=
  { title := some "Formation des éleveurs bovins",
    link := some "https://www.morbihan.gouv.fr/f1",
    description := some "", date := none, metadata := none,
    html_content := some "" }

/-- A persisted row carrying the negative-keyword card's link. -/
def negKwRow : GovernmentDocument :=
  { title := "Ancien titre", description := "", link := "https://www.morbihan.gouv.fr/f1",
    date_updated := mkTimestamp 1 1 2024 }

/-- Witness for C3 at a concrete negative-keyword card against a store
that contains the row (so the delete branch is exercised). -/
theorem claim_C3_witness :
    contains_negative_keywords sampleEnv.negative_keywords negKwCard.title negKwCard.description = true ∧
    scraper_contains_negative_keywords sampleEnv.negative_keywords
      (negKwItem.title.getD "") (negKwItem.description.getD "") = true ∧
    (((save_to_database sampleEnv 1 [negKwCard] [negKwRow]).creates = 0 ∧
      (save_to_database sampleEnv 1 [negKwCard] [negKwRow]).updates = 0 ∧
      (save_to_database sampleEnv 1 [negKwCard] [negKwRow]).store =
        (if (findByLink [negKwRow] negKwCard.link).isSome then
           eraseFirstByLink [negKwRow] negKwCard.link else [negKwRow])) ∧
     ((scraper_save_to_database sampleEnv [negKwItem] [negKwRow]).creates = 0 ∧
      (scraper_save_to_database sampleEnv [negKwItem] [negKwRow]).updates = 0 ∧
      (scraper_save_to_database sampleEnv [negKwItem] [negKwRow]).store =
        (if (findByLink [negKwRow] (negKwItem.link.getD "")).isSome then
           eraseFirstByLink [negKwRow] (negKwItem.link.getD "") else [negKwRow]))) :=
  ⟨by decide, by decide,
   claim_C3 sampleEnv 1 negKwCard [negKwRow] negKwItem [negKwRow] (by decide) (by decide)⟩

/-! ## Claim C4 -/

/-- A row matching `negKwCard`'s link and parsed date exactly. -/
def negKwRowSameDate : GovernmentDocument :=
  { title := "Formation des éleveurs bovins", description := "",
    link := "https://www.morbihan.gouv.fr/f1",
    date_updated := mkTimestamp 17 4 2024 }

/-- Counterexample to claim C4 as stated: a persisted record with
identical link and identical parsed `date_updated` exists for the card,
yet processing the card is not a no-op — the negative-keyword filter runs
first and deletes the row (a store write). -/
theorem claim_C4_cex :
    findByLink [negKwRowSameDate] negKwCard.link = some negKwRowSameDate ∧
    negKwRowSameDate.date_updated = cardDate sampleEnv negKwCard ∧
    (save_to_database sampleEnv 1 [negKwCard] [negKwRowSameDate]).deletes = 1 ∧
    (save_to_database sampleEnv 1 [negKwCard] [negKwRowSameDate]).store = [] := by
  decide

/-- Claim C4 (amended): for a card that does not match a negative keyword
and is not detected as a multi-document index page, if a persisted record
exists with identical link and identical parsed `date_updated`, processing
the card is a true no-op — the store is unchanged, no create / update /
delete happens, and the full-text fetch and oracle calls are skipped
entirely (zero fetches, zero classifications). -/
theorem claim_C4 (env : Env) (fuel : Nat) (card : ScrapedCard) (st : Store)
    (ex : GovernmentDocument)
    (hkw : contains_negative_keywords env.negative_keywords card.title card.description = false)
    (hmulti : detect_multi_document_page card.title = none)
    (hex : findByLink st card.link = some ex)
    (hdate : ex.date_updated = cardDate env card) :
    save_to_database env fuel [card] st = RunResult.noop st := by
  have hproc : ∀ recurse, processCard env recurse card st = RunResult.noop st := by
    intro recurse
    simp only [processCard, hkw, Bool.false_eq_true, if_false, hmulti]
    rw [stepRegular, hex]
    split
    · rfl
    · simp [hdate]
  cases fuel with
  | zero => rw [save_to_database, saveCardsGo_singleton, hproc]
  | succ f => rw [save_to_database, saveCardsGo_singleton, hproc]

/-- The row matching `sampleCard`'s link and parsed date. -/
def sampleRowSameDate : GovernmentDocument :=
  { title := "Avis d'enquête publique", description := "élevage de volailles",
    link := "https://www.morbihan.gouv.fr/doc1",
    date_updated := mkTimestamp 17 4 2024 }

/-- Witness for the amended C4 at a concrete identical card. -/
theorem claim_C4_witness :
    contains_negative_keywords sampleEnv.negative_keywords sampleCard.title sampleCard.description = false ∧
    detect_multi_document_page sampleCard.title = none ∧
    findByLink [sampleRowSameDate] sampleCard.link = some sampleRowSameDate ∧
    sampleRowSameDate.date_updated = cardDate sampleEnv sampleCard ∧
    save_to_database sampleEnv 1 [sampleCard] [sampleRowSameDate] = RunResult.noop [sampleRowSameDate] :=
  ⟨by decide, by decide, by decide, by decide,
   claim_C4 sampleEnv 1 sampleCard [sampleRowSameDate] sampleRowSameDate
     (by decide) (by decide) (by decide) (by decide)⟩

/-! ## Claim C5 -/

theorem stepRegular_written_fresh (env : Env) (card : ScrapedCard) (date : Int)
    (existing : Option GovernmentDocument) (st : Store) :
    ∀ d ∈ (stepRegular env card date existing st).written,
      env.now - env.days_limit ≤ d.date_updated := by
  rw [stepRegular]
  split
  · intro d hd; simp [RunResult.noop] at hd
  · rename_i hfresh
    split
    · intro d hd; simp [RunResult.noop] at hd
    · cases hft : fullPageTextOf env card.link with
      | none => intro d hd; simp [RunResult.noop] at hd
      | some t =>
        simp only []
        cases existing with
        | some ex =>
          simp only []
          split
          · intro d hd
            simp at hd
            subst hd
            exact Int.not_lt.mp hfresh
          · intro d hd; simp [RunResult.noop] at hd
        | none =>
          simp only []
          intro d hd
          simp at hd
          subst hd
          exact Int.not_lt.mp hfresh

theorem processCard_written_fresh (env : Env)
    (recurse : List ScrapedCard → Store → RunResult) (card : ScrapedCard) (st : Store)
    (hrec : ∀ cs st', ∀ d ∈ (recurse cs st').written,
      env.now - env.days_limit ≤ d.date_updated) :
    ∀ d ∈ (processCard env recurse card st).written,
      env.now - env.days_limit ≤ d.date_updated := by
  simp only [processCard]
  split
  · split
    · intro d hd; simp [RunResult.noop] at hd
    · intro d hd; simp [RunResult.noop] at hd
  · split
    · split
      · intro d hd; simp [RunResult.noop] at hd
      · split
        · split
          · intro d hd; simp [RunResult.noop] at hd
          · intro d hd
            simp only [] at hd
            exact hrec _ _ d hd
        · intro d hd
          simp only [] at hd
          exact hrec _ _ d hd
    · exact stepRegular_written_fresh env card _ _ st

theorem saveCardsGo_written_fresh (env : Env)
    (recurse : List ScrapedCard → Store → RunResult) (cards : List ScrapedCard) (st : Store)
    (hrec : ∀ cs st', ∀ d ∈ (recurse cs st').written,
      env.now - env.days_limit ≤ d.date_updated) :
    ∀ d ∈ (saveCardsGo env recurse cards st).written,
      env.now - env.days_limit ≤ d.date_updated := by
  induction cards generalizing st with
  | nil => intro d hd; simp [saveCardsGo, RunResult.noop] at hd
  | cons card rest ih =>
    intro d hd
    simp only [saveCardsGo, RunResult.seq, List.mem_append] at hd
    rcases hd with hd | hd
    · exact processCard_written_fresh env recurse card st hrec d hd
    · exact ih _ d hd

theorem save_to_database_written_fresh (env : Env) (fuel : Nat)
    (cards : List ScrapedCard) (st : Store) :
    ∀ d ∈ (save_to_database env fuel cards st).written,
      env.now - env.days_limit ≤ d.date_updated := by
  induction fuel generalizing cards st with
  | zero =>
    apply saveCardsGo_written_fresh
    intro cs st' d hd
    simp [RunResult.noop] at hd
  | succ fuel ih =>
    apply saveCardsGo_written_fresh
    intro cs st' d hd
    exact ih cs st' d hd

/-- An undated-window legacy item carrying an old `Mis à jour` date. -/
def oldItem : CardData :=
  { title := some "Vieil avis", link := some "https://www.morbihan.gouv.fr/old",
    description := some "", date := none,
    metadata := some [("fr-card__detail", ["Mis à jour le 05/01/2020"])],
    html_content := some "" }

/-- Counterexample to claim C5 as stated: the legacy scraper-module
`save_to_database` (scraper.py lines 485-620) has no freshness check, so a
card dated 05/01/2020 — far older than the 30-day lookback of the
environment — is created, and the written row violates
`date_updated >= now - lookback`. -/
theorem claim_C5_cex :
    (scraper_save_to_database sampleEnv [oldItem] []).creates = 1 ∧
    ((scraper_save_to_database sampleEnv [oldItem] []).written.all
      (fun d => decide (d.date_updated < sampleEnv.now - sampleEnv.days_limit))) = true ∧
    (scraper_save_to_database sampleEnv [oldItem] []).written ≠ [] := by
  decide

/-- Claim C5 (amended): every document created or updated by the
analysis-module pipeline satisfies `date_updated >= now - days_limit` at
write time — the freshness guard of analysis.py `save_to_database` runs on
every write path, including recursive multi-document expansion.  (The
legacy scraper-module save path performs no freshness check, as the
counterexample shows.) -/
theorem claim_C5 (env : Env) (fuel : Nat) (cards : List ScrapedCard) (st : Store) :
    ∀ d ∈ (save_to_database env fuel cards st).written,
      env.now - env.days_limit ≤ d.date_updated :=
  save_to_database_written_fresh env fuel cards st

/-- The row the C5 sample run writes. -/
def sampleSavedDoc : GovernmentDocument :=
  { title := "Avis d'enquête publique", description := "élevage de volailles",
    link := "https://www.morbihan.gouv.fr/doc1",
    date_updated := mkTimestamp 17 4 2024, full_page_text := "texte de la page",
    summary := "résumé", is_animal_project := false, is_intensive_farming := false,
    animal_type := none, animal_number := none, is_icpe := false,
    prefecture_name := some "Morbihan", prefecture_code := some "56",
    region_name := some "Bretagne" }

/-- Witness for the amended C5 at a concrete written row. -/
theorem claim_C5_witness :
    sampleSavedDoc ∈ (save_to_database sampleEnv 1 [sampleCard] []).written ∧
    sampleEnv.now - sampleEnv.days_limit ≤ sampleSavedDoc.date_updated :=
  ⟨by decide, claim_C5 sampleEnv 1 [sampleCard] [] sampleSavedDoc (by decide)⟩

/-! ## Claim C6 -/

theorem validateArrete_sound {page_url : String} {a : RawArrete} {x : ScrapedCard}
    (hv : validateArrete page_url a = some x) :
    x.link ≠ page_url ∧ strTrim x.title ≠ "" := by
  unfold validateArrete at hv
  split at hv
  · simp at hv
  · rename_i htitle
    split at hv
    · simp at hv
    · split at hv
      · simp at hv
      · split at hv
        all_goals
          simp only [] at hv
          split at hv
        any_goals simp at hv
        all_goals
          rename_i hsame2
          subst hv
          exact ⟨fun hc => hsame2 (Or.inl hc), fun hc => htitle (Or.inr hc)⟩

theorem ai_extraction_valid (page_url : String) (raws : List RawArrete) :
    ∀ x ∈ extract_arretes_prefectoraux_from_page_ai page_url raws,
      x.link ≠ page_url ∧ strTrim x.title ≠ "" := by
  intro x hx
  rcases List.mem_filterMap.mp hx with ⟨a, _, hv⟩
  exact validateArrete_sound hv

theorem processCard_multi_det (env : Env) (recurse : List ScrapedCard → Store → RunResult)
    (card : ScrapedCard) (st : Store) (t pt : String)
    (hkw : contains_negative_keywords env.negative_keywords card.title card.description = false)
    (hm : detect_multi_document_page card.title = some t)
    (hpage : multiPageText env card.link = some pt)
    (hdet : (extract_arretes_prefectoraux_deterministic (env.soup card.link) card.link).isEmpty = false) :
    processCard env recurse card st =
      { recurse (extract_arretes_prefectoraux_deterministic (env.soup card.link) card.link) st with
        fetches := (recurse (extract_arretes_prefectoraux_deterministic (env.soup card.link) card.link) st).fetches + 1 } := by
  simp only [processCard, hkw, Bool.false_eq_true, if_false, hm, hpage, hdet]

/-- An index-page card (title is exactly a four-digit year). -/
def idxCard : ScrapedCard :=
  { title := "2024", link := "https://www.morbihan.gouv.fr/idx",
    description := "", date_label := "", metadata := [], html_content := none }

/-- Environment whose download-link soup for every page contains a single
link whose href equals the index page's own URL (with a dated detail
span), which the deterministic pass accepts. -/
def idxEnv : Env :=
  { sampleEnv with
    soup := fun _ =>
      [{ href := "https://www.morbihan.gouv.fr/idx",
         detail := some "PDF - 0,07 Mb - 17/04/2024",
         text := "Télécharger Arrêté A PDF - 0,07 Mb - 17/04/2024" }] }

/-- Counterexample to claim C6 as stated: the deterministic download-link
pass does not exclude the page's own URL, so a download link pointing at
the index page itself is re-entered as a sub-document and created — the
index page's own link ends up in the store. -/
theorem claim_C6_cex :
    detect_multi_document_page idxCard.title = some "Year_2024" ∧
    (save_to_database idxEnv 1 [idxCard] []).creates = 1 ∧
    ((save_to_database idxEnv 1 [idxCard] []).store.any
      (fun d => d.link == idxCard.link)) = true := by
  decide

/-- Claim C6 (amended): for a card detected as an index page whose page
text is fetchable, (1) every sub-document recovered by the AI-assisted
extraction has a link that differs from the page's own URL and a non-empty
title, and (2) when the deterministic download-link pass returned at least
one document, processing the card is exactly the recursive re-entry of the
deterministically extracted sub-documents (plus the page fetch) — the
AI-assisted extraction is not invoked for the page and the index card
itself is never created or updated (only re-entered sub-documents can
write, and one of them may carry the page's own URL, as the counterexample
shows). -/
theorem claim_C6 (env : Env) (fuel : Nat) (card : ScrapedCard) (st : Store)
    (det : List ScrapedCard) (t pt : String)
    (hkw : contains_negative_keywords env.negative_keywords card.title card.description = false)
    (hm : detect_multi_document_page card.title = some t)
    (hpage : multiPageText env card.link = some pt)
    (hdetdef : det = extract_arretes_prefectoraux_deterministic (env.soup card.link) card.link)
    (hdet : det.isEmpty = false) :
    (∀ u raws, ∀ x ∈ extract_arretes_prefectoraux_from_page_ai u raws,
        x.link ≠ u ∧ strTrim x.title ≠ "") ∧
    save_to_database env (fuel + 1) [card] st =
      { save_to_database env fuel det st with
        fetches := (save_to_database env fuel det st).fetches + 1 } := by
  constructor
  · exact ai_extraction_valid
  · subst hdetdef
    rw [save_to_database, saveCardsGo_singleton]
    exact processCard_multi_det env _ card st t pt hkw hm hpage hdet

/-- Witness for the amended C6 at the concrete index page. -/
theorem claim_C6_witness :
    detect_multi_document_page idxCard.title = some "Year_2024" ∧
    multiPageText idxEnv idxCard.link = some "texte de la page" ∧
    (extract_arretes_prefectoraux_deterministic (idxEnv.soup idxCard.link) idxCard.link).isEmpty = false ∧
    ((∀ u raws, ∀ x ∈ extract_arretes_prefectoraux_from_page_ai u raws,
        x.link ≠ u ∧ strTrim x.title ≠ "") ∧
     save_to_database idxEnv (0 + 1) [idxCard] [] =
       { save_to_database idxEnv 0
           (extract_arretes_prefectoraux_deterministic (idxEnv.soup idxCard.link) idxCard.link) [] with
         fetches := (save_to_database idxEnv 0
           (extract_arretes_prefectoraux_deterministic (idxEnv.soup idxCard.link) idxCard.link) []).fetches + 1 }) :=
  ⟨by decide, by decide, by decide,
   claim_C6 idxEnv 0 idxCard [] _ "Year_2024" "texte de la page"
     (by decide) (by decide) (by decide) rfl (by decide)⟩

/-! ## Claim C7 -/

/-- Transient failure classes as surfaced errors. -/
def transientFailure : FetchFailure → Bool
  | .timeout => true
  | .connError => true
  | .http status => status = 429
  | .other => true
  | .exhausted => false

theorem retryLoop_transient_exhausts (outcome : Nat → FetchOutcome)
    (htrans : ∀ k, transientOutcome (outcome k) = true) :
    ∀ left attempt, 1 ≤ left →
      ∃ e, retryLoop outcome left attempt = .error (e, attempt + left) := by
  intro left
  induction left with
  | zero => intro attempt h; exact absurd h (by decide)
  | succ l ih =>
    intro attempt _
    have ht := htrans attempt
    cases houtcome : outcome attempt with
    | resp status =>
      have hs : status = 429 := by
        rw [houtcome] at ht
        simpa [transientOutcome] using ht
      subst hs
      cases l with
      | zero =>
        exact ⟨.http 429, by simp [retryLoop, houtcome, raisesForStatus]⟩
      | succ l' =>
        rcases ih (attempt + 1) (by omega) with ⟨e, he⟩
        refine ⟨e, ?_⟩
        have harith : attempt + (l' + 1 + 1) = attempt + 1 + (l' + 1) := by omega
        rw [harith, retryLoop, houtcome]
        dsimp only
        rw [if_neg (show ¬(¬raisesForStatus 429 = true) by decide)]
        rw [if_pos (show (429 : Nat) = 429 from rfl)]
        rw [if_neg (show ¬(l' + 1 = 0) from Nat.succ_ne_zero l')]
        exact he
    | timeout =>
      cases l with
      | zero => exact ⟨.timeout, by simp [retryLoop, houtcome]⟩
      | succ l' =>
        rcases ih (attempt + 1) (by omega) with ⟨e, he⟩
        refine ⟨e, ?_⟩
        have harith : attempt + (l' + 1 + 1) = attempt + 1 + (l' + 1) := by omega
        rw [harith, retryLoop, houtcome]
        dsimp only
        rw [if_neg (show ¬(l' + 1 = 0) from Nat.succ_ne_zero l')]
        exact he
    | connError =>
      cases l with
      | zero => exact ⟨.connError, by simp [retryLoop, houtcome]⟩
      | succ l' =>
        rcases ih (attempt + 1) (by omega) with ⟨e, he⟩
        refine ⟨e, ?_⟩
        have harith : attempt + (l' + 1 + 1) = attempt + 1 + (l' + 1) := by omega
        rw [harith, retryLoop, houtcome]
        dsimp only
        rw [if_neg (show ¬(l' + 1 = 0) from Nat.succ_ne_zero l')]
        exact he
    | otherError =>
      cases l with
      | zero => exact ⟨.other, by simp [retryLoop, houtcome]⟩
      | succ l' =>
        rcases ih (attempt + 1) (by omega) with ⟨e, he⟩
        refine ⟨e, ?_⟩
        have harith : attempt + (l' + 1 + 1) = attempt + 1 + (l' + 1) := by omega
        rw [harith, retryLoop, houtcome]
        dsimp only
        rw [if_neg (show ¬(l' + 1 = 0) from Nat.succ_ne_zero l')]
        exact he

theorem retryLoop_transient_error_attempts (outcome : Nat → FetchOutcome) :
    ∀ left attempt e n, retryLoop outcome left attempt = .error (e, n) →
      transientFailure e = true → n = attempt + left := by
  intro left
  induction left with
  | zero =>
    intro attempt e n h htf
    simp [retryLoop] at h
    rw [← h.1] at htf
    simp [transientFailure] at htf
  | succ l ih =>
    intro attempt e n h htf
    rw [retryLoop] at h
    cases houtcome : outcome attempt <;> rw [houtcome] at h <;> dsimp only at h
    case resp status =>
      split at h
      · simp at h
      · split at h
        · rename_i hs429
          split at h
          · rename_i hl
            simp at h
            obtain ⟨he, hn⟩ := h
            omega
          · rename_i hl
            have := ih (attempt + 1) e n h htf
            omega
        · rename_i hs429
          simp at h
          obtain ⟨he, hn⟩ := h
          rw [← he] at htf
          simp [transientFailure] at htf
          exact absurd htf hs429
    case timeout =>
      split at h
      · rename_i hl
        simp at h
        obtain ⟨he, hn⟩ := h
        omega
      · rename_i hl
        have := ih (attempt + 1) e n h htf
        omega
    case connError =>
      split at h
      · rename_i hl
        simp at h
        obtain ⟨he, hn⟩ := h
        omega
      · rename_i hl
        have := ih (attempt + 1) e n h htf
        omega
    case otherError =>
      split at h
      · rename_i hl
        simp at h
        obtain ⟨he, hn⟩ := h
        omega
      · rename_i hl
        have := ih (attempt + 1) e n h htf
        omega

/-- Claim C7 (amended): `make_request_with_retry` retries timeouts,
connection failures, HTTP 429 responses and unexpected exceptions, and a
failure of one of those transient classes surfaces only after the whole
budget of `max_retries + 1` attempts is exhausted (never earlier); the
backoff factor `2 ^ attempt` grows strictly; but an HTTP error other than
429 — in particular every 5xx response — is re-raised immediately after
the first attempt, with no retry. -/
theorem claim_C7 (outcome : Nat → FetchOutcome) (max_retries : Nat) :
    ((∀ k, transientOutcome (outcome k) = true) →
      ∃ e, make_request_with_retry outcome max_retries = .error (e, max_retries + 1)) ∧
    (∀ e n, make_request_with_retry outcome max_retries = .error (e, n) →
      transientFailure e = true → n = max_retries + 1) ∧
    (∀ s, outcome 0 = .resp s → raisesForStatus s = true → s ≠ 429 →
      make_request_with_retry outcome max_retries = .error (.http s, 1)) ∧
    (∀ i j, i < j → retryDelayFactor i < retryDelayFactor j) := by
  refine ⟨?_, ?_, ?_, ?_⟩
  · intro htrans
    rcases retryLoop_transient_exhausts outcome htrans (max_retries + 1) 0 (by omega) with ⟨e, he⟩
    exact ⟨e, by simpa [make_request_with_retry] using he⟩
  · intro e n h htf
    have := retryLoop_transient_error_attempts outcome (max_retries + 1) 0 e n h htf
    omega
  · intro s h0 hrs hs429
    rw [make_request_with_retry, retryLoop, h0]
    dsimp only
    rw [if_neg (not_not_intro hrs), if_neg hs429]
  · intro i j hij
    exact Nat.pow_lt_pow_right one_lt_two hij

/-- Counterexample to claim C7 as stated: a server answering HTTP 500 on
every attempt is NOT retried — `make_request_with_retry` with
`max_retries = 3` (a budget of four attempts) surfaces the failure after a
single attempt, because only HTTP 429 among the HTTP errors is retried,
and 500 is not among the loop's transient classes. -/
theorem claim_C7_cex :
    make_request_with_retry (fun _ => .resp 500) 3 = .error (.http 500, 1) ∧
    transientOutcome (.resp 500) = false ∧
    (1 : Nat) ≠ 3 + 1 :=
  ⟨rfl, rfl, by decide⟩

/-- Witness for the amended C7: an always-timing-out endpoint exhausts
the whole budget, and a 503 on the first attempt surfaces at once. -/
theorem claim_C7_witness :
    (∃ e, make_request_with_retry (fun _ => .timeout) 2 = .error (e, 2 + 1)) ∧
    make_request_with_retry (fun k => if k = 0 then .resp 503 else .resp 200) 5 =
      .error (.http 503, 1) :=
  ⟨(claim_C7 (fun _ => .timeout) 2).1 (fun _ => rfl),
   (claim_C7 (fun k => if k = 0 then .resp 503 else .resp 200) 5).2.2.1 503 rfl
     (by decide) (by decide)⟩

/-! ## Claim C8 -/

/-- Total number of characters in a list of text chunks. -/
def sumLen (l : List String) : Nat := (l.map String.length).sum

theorem truncateTo_length_le (s : String) (n : Nat) : (truncateTo s n).length ≤ n := by
  rw [truncateTo]
  split
  · rename_i h
    show (List.take n s.data).length ≤ n
    exact List.length_take_le n s.data
  · rename_i h
    omega

theorem truncateTo_length_le_self (s : String) (n : Nat) :
    (truncateTo s n).length ≤ s.length := by
  rw [truncateTo]
  split
  · show (List.take n s.data).length ≤ s.data.length
    exact List.length_take_le' n s.data
  · exact Nat.le_refl _

theorem samplePdfsAux_length : ∀ (links acc : List String), acc.length < 3 →
    (samplePdfsAux links acc).length ≤ 3 := by
  intro links
  induction links with
  | nil =>
    intro acc hacc
    simp [samplePdfsAux]
    omega
  | cons u rest ih =>
    intro acc hacc
    rw [samplePdfsAux]
    split
    · exact ih acc hacc
    · dsimp only
      split
      · rename_i hfull
        simp at hfull ⊢
        omega
      · rename_i hfull
        apply ih
        simp at hfull ⊢
        omega

theorem samplePdfsAux_nodup : ∀ (links acc : List String), acc.Nodup →
    (samplePdfsAux links acc).Nodup := by
  intro links
  induction links with
  | nil =>
    intro acc hacc
    rw [samplePdfsAux]
    exact List.nodup_reverse.mpr hacc
  | cons u rest ih =>
    intro acc hacc
    rw [samplePdfsAux]
    split
    · exact ih acc hacc
    · rename_i hskip
      have hnotmem : strTrim u ∉ acc := by
        intro hc
        exact hskip (Or.inr (List.elem_eq_true_of_mem hc))
      have hacc' : (strTrim u :: acc).Nodup := List.nodup_cons.mpr ⟨hnotmem, hacc⟩
      dsimp only
      split
      · exact List.nodup_reverse.mpr hacc'
      · exact ih _ hacc'

theorem appendPdfTexts_each_le (env : Env) : ∀ (l : List String) (total : Nat),
    ∀ t ∈ appendPdfTexts env l total, t.length ≤ PER_PDF_CHAR_LIMIT := by
  intro l
  induction l with
  | nil => intro total t ht; simp [appendPdfTexts] at ht
  | cons u rest ih =>
    intro total t ht
    rw [appendPdfTexts] at ht
    split at ht
    · simp at ht
    · dsimp only at ht
      split at ht
      · exact ih total t ht
      · split at ht
        · simp at ht
        · simp only [List.mem_cons] at ht
          rcases ht with ht | ht
          · subst ht
            calc (truncateTo (truncateTo (env.extract_text_from_pdf u) PER_PDF_CHAR_LIMIT)
                    (TOTAL_PDF_CHAR_BUDGET - total)).length
                ≤ (truncateTo (env.extract_text_from_pdf u) PER_PDF_CHAR_LIMIT).length :=
                  truncateTo_length_le_self _ _
              _ ≤ PER_PDF_CHAR_LIMIT := truncateTo_length_le _ _
          · exact ih _ t ht

theorem appendPdfTexts_budget (env : Env) : ∀ (l : List String) (total : Nat),
    sumLen (appendPdfTexts env l total) ≤ TOTAL_PDF_CHAR_BUDGET - total := by
  intro l
  induction l with
  | nil => intro total; simp [appendPdfTexts, sumLen]
  | cons u rest ih =>
    intro total
    rw [appendPdfTexts]
    split
    · simp [sumLen]
    · dsimp only
      split
      · exact ih total
      · split
        · simp [sumLen]
        · rename_i hnz
          simp only [sumLen, List.map_cons, List.sum_cons]
          have h2 := truncateTo_length_le
            (truncateTo (env.extract_text_from_pdf u) PER_PDF_CHAR_LIMIT)
            (TOTAL_PDF_CHAR_BUDGET - total)
          have hrest := ih (total +
            (truncateTo (truncateTo (env.extract_text_from_pdf u) PER_PDF_CHAR_LIMIT)
              (TOTAL_PDF_CHAR_BUDGET - total)).length)
          simp only [sumLen] at hrest
          omega

theorem appendPdfTexts_skip (env : Env) (u : String) (rest : List String) (total : Nat)
    (hfail : env.extract_text_from_pdf u = "") :
    appendPdfTexts env (u :: rest) total = appendPdfTexts env rest total := by
  rw [appendPdfTexts]
  split
  · rename_i hbreak
    cases rest with
    | nil => rw [appendPdfTexts]
    | cons v vs =>
      rw [appendPdfTexts, if_pos hbreak]
  · simp [hfail]

/-- Claim C8: when the primary classification flags intensive farming,
the enrichment step samples at most three pairwise-distinct linked PDF
URLs, truncates each extracted PDF text to `PER_PDF_CHAR_LIMIT`
characters, never appends more than `TOTAL_PDF_CHAR_BUDGET` characters in
aggregate, and a PDF whose extraction fails (empty text) is skipped
without aborting the loop. -/
theorem claim_C8 (env : Env) (linked_pdfs : List String) (u : String)
    (rest : List String) (total : Nat)
    (hfail : env.extract_text_from_pdf u = "") :
    (samplePdfs linked_pdfs).length ≤ 3 ∧
    (samplePdfs linked_pdfs).Nodup ∧
    (∀ t ∈ appendPdfTexts env (samplePdfs linked_pdfs) 0, t.length ≤ PER_PDF_CHAR_LIMIT) ∧
    sumLen (appendPdfTexts env (samplePdfs linked_pdfs) 0) ≤ TOTAL_PDF_CHAR_BUDGET ∧
    appendPdfTexts env (u :: rest) total = appendPdfTexts env rest total := by
  refine ⟨samplePdfsAux_length linked_pdfs [] (by decide),
    samplePdfsAux_nodup linked_pdfs [] List.nodup_nil,
    appendPdfTexts_each_le env _ 0, ?_,
    appendPdfTexts_skip env u rest total hfail⟩
  have := appendPdfTexts_budget env (samplePdfs linked_pdfs) 0
  omega

/-- Environment whose PDF extraction fails for one particular URL. -/
def failPdfEnv : Env :=
  { sampleEnv with
    extract_text_from_pdf := fun u =>
      if u = "https://www.morbihan.gouv.fr/bad.pdf" then "" else "texte du pdf" }

/-- The linked-PDF list used by the C8 witness (with a duplicate, an
empty entry, and more than three distinct URLs). -/
def manyPdfLinks : List String :=
  ["https://a.gouv.fr/1.pdf", " https://a.gouv.fr/1.pdf ", "",
   "https://a.gouv.fr/2.pdf", "https://a.gouv.fr/3.pdf", "https://a.gouv.fr/4.pdf"]

/-- Witness for C8 at a concrete many-PDF page with one failing PDF. -/
theorem claim_C8_witness :
    failPdfEnv.extract_text_from_pdf "https://www.morbihan.gouv.fr/bad.pdf" = "" ∧
    ((samplePdfs manyPdfLinks).length ≤ 3 ∧
     (samplePdfs manyPdfLinks).Nodup ∧
     (∀ t ∈ appendPdfTexts failPdfEnv (samplePdfs manyPdfLinks) 0,
        t.length ≤ PER_PDF_CHAR_LIMIT) ∧
     sumLen (appendPdfTexts failPdfEnv (samplePdfs manyPdfLinks) 0) ≤ TOTAL_PDF_CHAR_BUDGET ∧
     appendPdfTexts failPdfEnv
         ("https://www.morbihan.gouv.fr/bad.pdf" :: ["https://a.gouv.fr/1.pdf"]) 0 =
       appendPdfTexts failPdfEnv ["https://a.gouv.fr/1.pdf"] 0) :=
  ⟨by decide,
   claim_C8 failPdfEnv manyPdfLinks "https://www.morbihan.gouv.fr/bad.pdf"
     ["https://a.gouv.fr/1.pdf"] 0 (by decide)⟩

/-! ## Claim C9 -/

theorem extract_card_data_truthy (el : CardElement) (domain : Option String) :
    (extract_card_data el domain).isTruthy = true := by
  simp [extract_card_data, CardData.isTruthy]

/-- A fr-card element with no title, no anchor, no description, no date
and no metadata classes. -/
def emptyCardEl : CardElement := { html := "<div class=\x22fr-card\x22></div>" }

/-- Counterexample to claim C9 as stated: a card with neither a title nor
a link is NOT dropped — `extract_card_data` always sets the
`html_content` key, so the `if card_data:` test in
`scrape_government_site` accepts every card. -/
theorem claim_C9_cex :
    (extract_card_data emptyCardEl none).title = none ∧
    (extract_card_data emptyCardEl none).link = none ∧
    scrape_government_site_cards [emptyCardEl] none = [extract_card_data emptyCardEl none] := by
  decide

/-- Claim C9 (amended): the card loop of `scrape_government_site` keeps
every `fr-card` element's extracted record — including records with
neither title nor link, since the raw-HTML key is always present — so in
particular every record with at least one of title or link is kept even
when other fields are missing. -/
theorem claim_C9 (cards : List CardElement) (domain : Option String) :
    scrape_government_site_cards cards domain = cards.map (extract_card_data · domain) := by
  rw [scrape_government_site_cards]
  apply List.filter_eq_self.mpr
  intro cd hcd
  rcases List.mem_map.mp hcd with ⟨el, _, rfl⟩
  exact extract_card_data_truthy el domain

/-! ## Claim C10 -/

/-- Shape test for a DD/MM/YYYY date label (two digits, slash, two
digits, slash, four digits). -/
def isDDMMYYYY (s : String) : Bool :=
  match s.data with
  | [d1, d2, s1, m1, m2, s2, y1, y2, y3, y4] =>
    d1.isDigit ∧ d2.isDigit ∧ s1 = '/' ∧ m1.isDigit ∧ m2.isDigit ∧ s2 = '/' ∧
    y1.isDigit ∧ y2.isDigit ∧ y3.isDigit ∧ y4.isDigit
  | _ => false

theorem startsWith_http_shape {s : String} (h : strStartsWith s "http" = true) :
    ∃ rest, s.data = 'h' :: 't' :: 't' :: 'p' :: rest := by
  rcases s with ⟨l⟩
  match l with
  | [] => simp [strStartsWith, List.isPrefixOf] at h
  | [a] => simp [strStartsWith, List.isPrefixOf] at h
  | [a, b] => simp [strStartsWith, List.isPrefixOf] at h
  | [a, b, c] => simp [strStartsWith, List.isPrefixOf] at h
  | a :: b :: c :: d :: rest =>
    simp only [strStartsWith, List.isPrefixOf, Bool.and_eq_true, beq_iff_eq] at h
    obtain ⟨h1, h2, h3, h4, -⟩ := h
    subst h1
    subst h2
    subst h3
    subst h4
    exact ⟨rest, rfl⟩

theorem startsWith_http_append (s t : String) (h : strStartsWith s "http" = true) :
    strStartsWith (s ++ t) "http" = true := by
  obtain ⟨rest, hdata⟩ := startsWith_http_shape h
  simp [strStartsWith, String.data, hdata, List.isPrefixOf]

theorem urlOrigin_http (base : String) (h : strStartsWith base "http" = true) :
    strStartsWith (urlOrigin base) "http" = true := by
  obtain ⟨rest, hdata⟩ := startsWith_http_shape h
  rw [urlOrigin, hdata]
  show strStartsWith ⟨'h' :: 't' :: 't' :: 'p' :: originAux rest⟩ "http" = true
  simp [strStartsWith, List.isPrefixOf]

theorem dirAux_http_chain (rest : List Char) :
    dirAux ('h' :: 't' :: 't' :: 'p' :: rest) =
      match dirAux rest with
      | some d => some ('h' :: 't' :: 't' :: 'p' :: d)
      | none => none := by
  cases hd : dirAux rest <;> simp [dirAux, hd]

theorem urlDir_http (base : String) (h : strStartsWith base "http" = true) :
    strStartsWith (urlDir base) "http" = true := by
  obtain ⟨rest, hdata⟩ := startsWith_http_shape h
  rw [urlDir, hdata, dirAux_http_chain]
  cases hd : dirAux rest with
  | none => exact startsWith_http_append base "/" h
  | some d =>
    dsimp only
    split
    · simp [strStartsWith, List.isPrefixOf]
    · exact startsWith_http_append base "/" h

theorem urljoin_http (base rel : String) (hb : strStartsWith base "http" = true) :
    strStartsWith (urljoin base rel) "http" = true := by
  rw [urljoin]
  split
  · exact hb
  · split
    · assumption
    · split
      · exact startsWith_http_append (urlOrigin base) rel (urlOrigin_http base hb)
      · exact startsWith_http_append (urlDir base) rel (urlDir_http base hb)

theorem matchDDMMYYYYAt_shape {l d : List Char} (h : matchDDMMYYYYAt l = some d) :
    isDDMMYYYY ⟨d⟩ = true := by
  unfold matchDDMMYYYYAt at h
  split at h
  · split at h
    · rename_i hguard
      rw [Option.some_inj] at h
      subst h
      simpa [isDDMMYYYY] using hguard
    · simp at h
  · simp at h

theorem searchDDMMYYYY_shape : ∀ {l d : List Char}, searchDDMMYYYY l = some d →
    isDDMMYYYY ⟨d⟩ = true := by
  intro l
  induction l with
  | nil => intro d h; simp [searchDDMMYYYY] at h
  | cons c rest ih =>
    intro d h
    rw [searchDDMMYYYY] at h
    cases hm : matchDDMMYYYYAt (c :: rest) with
    | some r =>
      rw [hm] at h
      rw [Option.some_inj] at h
      subst h
      exact matchDDMMYYYYAt_shape hm
    | none =>
      rw [hm] at h
      exact ih h

theorem matchYYYYMMDDAt_shape {l : List Char} {ymd : List Char × List Char × List Char}
    (h : matchYYYYMMDDAt l = some ymd) : isDDMMYYYY ⟨ymdToSlashed ymd⟩ = true := by
  unfold matchYYYYMMDDAt at h
  split at h
  · split at h
    · rename_i hguard
      rw [Option.some_inj] at h
      subst h
      simp [isDDMMYYYY, ymdToSlashed]
      tauto
    · simp at h
  · simp at h

theorem searchYYYYMMDD_shape : ∀ {l : List Char} {ymd : List Char × List Char × List Char},
    searchYYYYMMDD l = some ymd → isDDMMYYYY ⟨ymdToSlashed ymd⟩ = true := by
  intro l
  induction l with
  | nil => intro ymd h; simp [searchYYYYMMDD] at h
  | cons c rest ih =>
    intro ymd h
    rw [searchYYYYMMDD] at h
    cases hm : matchYYYYMMDDAt (c :: rest) with
    | some r =>
      rw [hm] at h
      rw [Option.some_inj] at h
      subst h
      exact matchYYYYMMDDAt_shape hm
    | none =>
      rw [hm] at h
      exact ih h

theorem recoverDateStr_shape {el : DownloadLink} {title0 : String} {d : List Char}
    (h : recoverDateStr el title0 = some d) : isDDMMYYYY ⟨d⟩ = true := by
  unfold recoverDateStr at h
  cases h1 : searchDDMMYYYY (el.detail.getD "").data with
  | some r =>
    rw [h1] at h
    rw [Option.some_inj] at h
    subst h
    exact searchDDMMYYYY_shape h1
  | none =>
    rw [h1] at h
    cases h2 : searchYYYYMMDD el.href.data with
    | some ymd =>
      rw [h2] at h
      rw [Option.some_inj] at h
      subst h
      exact searchYYYYMMDD_shape h2
    | none =>
      rw [h2] at h
      cases h3 : searchYYYYMMDD title0.data with
      | some ymd =>
        rw [h3] at h
        rw [Option.some_inj] at h
        subst h
        exact searchYYYYMMDD_shape h3
      | none => rw [h3] at h; simp at h

theorem extractDownloadLink_props {page_url : String} {el : DownloadLink}
    {card : ScrapedCard} (hp : strStartsWith page_url "http" = true)
    (h : extractDownloadLink page_url el = some card) :
    card.title ≠ "" ∧ strStartsWith card.link "http" = true ∧
    isDDMMYYYY card.date_label = true ∧
    card.metadata = [("fr-card__detail", [card.date_label])] := by
  unfold extractDownloadLink at h
  split at h
  · simp at h
  · dsimp only at h
    cases hdate : recoverDateStr el (preTitleOf el) with
    | none => rw [hdate] at h; simp at h
    | some dateChars =>
      rw [hdate] at h
      dsimp only at h
      split at h
      · simp at h
      · rename_i htitle
        rw [Option.some_inj] at h
        subst h
        refine ⟨htitle, ?_, recoverDateStr_shape hdate, rfl⟩
        show strStartsWith
          (if strStartsWith el.href "http" = true then el.href
           else urljoin page_url el.href) "http" = true
        split
        · assumption
        · exact urljoin_http page_url el.href hp

theorem extractDownloadLink_no_date {page_url : String} {el : DownloadLink}
    (h : recoverDateStr el (preTitleOf el) = none) :
    extractDownloadLink page_url el = none := by
  unfold extractDownloadLink
  split
  · rfl
  · dsimp only
    rw [h]

/-- Claim C10: every card returned by the deterministic multi-document
extraction has a non-empty cleaned title, an http-prefixed absolute link
(resolved against the page URL when the href is relative), and a
DD/MM/YYYY date label stored in its metadata under `fr-card__detail`; a
download link for which no date can be recovered from the detail span,
the href filename, or the title is silently discarded and produces no
card. -/
theorem claim_C10 (soup : List DownloadLink) (page_url : String)
    (hp : strStartsWith page_url "http" = true) :
    (∀ card ∈ extract_arretes_prefectoraux_deterministic soup page_url,
       card.title ≠ "" ∧ strStartsWith card.link "http" = true ∧
       isDDMMYYYY card.date_label = true ∧
       card.metadata = [("fr-card__detail", [card.date_label])]) ∧
    (∀ el, recoverDateStr el (preTitleOf el) = none →
       extractDownloadLink page_url el = none) := by
  constructor
  · intro card hcard
    rcases List.mem_filterMap.mp hcard with ⟨el, _, hv⟩
    exact extractDownloadLink_props hp hv
  · intro el h
    exact extractDownloadLink_no_date h

/-- A download link with no recoverable date anywhere. -/
def noDateLink : DownloadLink :=
  { href := "/files/arrete.pdf", detail := some "PDF - 0,07 Mb",
    text := "Télécharger Arrêté sans date PDF - 0,07 Mb" }

/-- Witness for C10 at a concrete soup: one dated link and one dateless
link; only the dated one yields a card, and the dateless one is
discarded. -/
theorem claim_C10_witness :
    strStartsWith "https://www.morbihan.gouv.fr/idx" "http" = true ∧
    ((∀ card ∈ extract_arretes_prefectoraux_deterministic
        (idxEnv.soup "https://www.morbihan.gouv.fr/idx") "https://www.morbihan.gouv.fr/idx",
       card.title ≠ "" ∧ strStartsWith card.link "http" = true ∧
       isDDMMYYYY card.date_label = true ∧
       card.metadata = [("fr-card__detail", [card.date_label])]) ∧
     (∀ el, recoverDateStr el (preTitleOf el) = none →
       extractDownloadLink "https://www.morbihan.gouv.fr/idx" el = none)) ∧
    recoverDateStr noDateLink (preTitleOf noDateLink) = none ∧
    extractDownloadLink "https://www.morbihan.gouv.fr/idx" noDateLink = none :=
  ⟨by decide,
   claim_C10 (idxEnv.soup "https://www.morbihan.gouv.fr/idx")
     "https://www.morbihan.gouv.fr/idx" (by decide),
   by decide, by decide⟩

/-! ## Claim C2 -/

/-- Stores whose rows are all free of the configured negative keywords. -/
def KwFreeStore (kws : List String) (st : Store) : Prop :=
  ∀ d ∈ st, contains_negative_keywords kws d.title d.description = false

/-- Cards for which a re-run is deterministic: either the negative-keyword
filter fires, or the card is a regular (non-index) card whose date label
parses via the configured patterns, so its date does not default to the
clock. -/
def GoodCard (env : Env) (c : ScrapedCard) : Prop :=
  contains_negative_keywords env.negative_keywords c.title c.description = true ∨
  (contains_negative_keywords env.negative_keywords c.title c.description = false ∧
   detect_multi_document_page c.title = none ∧ (cardDatePure c).isSome)

/-- Sufficient condition on the row found for a card's link under which
processing the card performs no create and no update and leaves the store
unchanged. -/
def NoWrite (env : Env) (c : ScrapedCard) (o : Option GovernmentDocument) : Prop :=
  (contains_negative_keywords env.negative_keywords c.title c.description = true ∧
   o = none) ∨
  (contains_negative_keywords env.negative_keywords c.title c.description = false ∧
   detect_multi_document_page c.title = none ∧
   (cardDate env c < env.now - env.days_limit ∨
    (∃ ex, o = some ex ∧ ex.date_updated = cardDate env c) ∨
    fullPageTextOf env c.link = none))

theorem cardDate_of_pure {c : ScrapedCard} {v : Int} (h : cardDatePure c = some v)
    (env : Env) : cardDate env c = v := by
  unfold cardDatePure at h
  unfold cardDate
  cases hl : c.metadata.lookup "fr-card__detail" with
  | none => simp only [hl] at h; simp at h
  | some texts =>
    simp only [hl] at h ⊢
    unfold parse_date_from_detail
    rw [h]
    rfl

theorem processCard_nowrite (env : Env) (recurse : List ScrapedCard → Store → RunResult)
    (c : ScrapedCard) (st : Store) (hnw : NoWrite env c (findByLink st c.link)) :
    (processCard env recurse c st).creates = 0 ∧
    (processCard env recurse c st).updates = 0 ∧
    (processCard env recurse c st).store = st := by
  rcases hnw with ⟨hkw, hnone⟩ | ⟨hkw, hdet, hrest⟩
  · simp [processCard, hkw, hnone, RunResult.noop]
  · simp only [processCard, hkw, Bool.false_eq_true, if_false, hdet]
    rw [stepRegular]
    split
    · simp [RunResult.noop]
    · rename_i hfresh
      rcases hrest with hstale | ⟨ex, ho, hdate⟩ | hfail
      · exact absurd hstale hfresh
      · rw [ho]
        simp [hdate, RunResult.noop]
      · split
        · simp [RunResult.noop]
        · rw [hfail]
          simp [RunResult.noop]

theorem processCard_establishes (env : Env) (n2 : Int)
    (recurse : List ScrapedCard → Store → RunResult) (c : ScrapedCard) (st : Store)
    (hle : env.now ≤ n2) (hgood : GoodCard env c) (huniq : UniqueLinks st) :
    NoWrite { env with now := n2 } c
      (findByLink (processCard env recurse c st).store c.link) := by
  rcases hgood with hkw | ⟨hkw, hdet, hpure⟩
  · left
    refine ⟨hkw, ?_⟩
    rw [processCard_negkw env recurse c st hkw]
    cases hfind : findByLink st c.link with
    | some ex =>
      simp only [hfind, Option.isSome_some, if_true]
      exact findByLink_erase_self c.link huniq
    | none =>
      simp only [hfind, Option.isSome_none, Bool.false_eq_true, if_false]
      exact hfind
  · rcases Option.isSome_iff_exists.mp hpure with ⟨v, hv⟩
    have hdatev := cardDate_of_pure hv env
    have hdatev2 := cardDate_of_pure hv { env with now := n2 }
    right
    refine ⟨hkw, hdet, ?_⟩
    simp only [processCard, hkw, Bool.false_eq_true, if_false, hdet]
    rw [stepRegular, hdatev]
    split
    · rename_i hstale
      left
      rw [hdatev2]
      show v < n2 - env.days_limit
      omega
    · rename_i hfresh
      split
      · rename_i hid
        cases hfind : findByLink st c.link with
        | none => rw [hfind] at hid; simp at hid
        | some ex =>
          rw [hfind] at hid
          simp at hid
          right; left
          exact ⟨ex, hfind, by rw [hid, hdatev2]⟩
      · rename_i hid
        cases hft : fullPageTextOf env c.link with
        | none =>
          right; right
          exact hft
        | some txt =>
          try simp only []
          cases hfind : findByLink st c.link with
          | some ex =>
            try simp only []
            rw [hfind] at hid
            simp at hid
            split
            · rename_i hchanged
              right; left
              have hexl := findByLink_some_link hfind
              refine ⟨_, findByLink_replace_self hexl (by simp [hfind]), ?_⟩
              rw [hdatev2]
            · rename_i hchanged
              exfalso
              apply hchanged
              simp only [Bool.or_eq_true, bne_iff_ne, ne_eq]
              tauto
          | none =>
            right; left
            refine ⟨_, findByLink_insert_self hfind, ?_⟩
            rw [hdatev2]

theorem processCard_preserves_other (env : Env)
    (recurse : List ScrapedCard → Store → RunResult) (c : ScrapedCard) (st : Store)
    (l : String) (hl : c.link ≠ l) (hgood : GoodCard env c) :
    findByLink (processCard env recurse c st).store l = findByLink st l := by
  rcases hgood with hkw | ⟨hkw, hdet, hpure⟩
  · rw [processCard_negkw env recurse c st hkw]
    cases hfind : findByLink st c.link with
    | some ex =>
      simp only [hfind, Option.isSome_some, if_true]
      exact findByLink_erase_ne (fun hc => hl hc.symm)
    | none =>
      simp only [hfind, Option.isSome_none, Bool.false_eq_true, if_false]
      rfl
  · simp only [processCard, hkw, Bool.false_eq_true, if_false, hdet]
    rw [stepRegular]
    split
    · rfl
    · split
      · rfl
      · cases hft : fullPageTextOf env c.link with
        | none => rfl
        | some txt =>
          try simp only []
          cases hfind : findByLink st c.link with
          | some ex =>
            try simp only []
            split
            · have hexl := findByLink_some_link hfind
              exact findByLink_replace_ne (fun hc => hl hc.symm) hexl
            · rfl
          | none =>
            exact findByLink_insert_ne (fun hc => hl hc.symm)

theorem processCard_unique_good (env : Env)
    (recurse : List ScrapedCard → Store → RunResult) (c : ScrapedCard) (st : Store)
    (hgood : GoodCard env c) (huniq : UniqueLinks st) :
    UniqueLinks (processCard env recurse c st).store := by
  rcases hgood with hkw | ⟨hkw, hdet, hpure⟩
  · rw [processCard_negkw env recurse c st hkw]
    cases hfind : findByLink st c.link with
    | some ex =>
      simp only [hfind, Option.isSome_some, if_true]
      exact uniqueLinks_erase c.link huniq
    | none =>
      simp only [hfind, Option.isSome_none, Bool.false_eq_true, if_false]
      exact huniq
  · simp only [processCard, hkw, Bool.false_eq_true, if_false, hdet]
    exact stepRegular_unique env c _ st huniq

theorem processCard_kwfree (env : Env)
    (recurse : List ScrapedCard → Store → RunResult) (c : ScrapedCard) (st : Store)
    (hgood : GoodCard env c) (hfree : KwFreeStore env.negative_keywords st) :
    KwFreeStore env.negative_keywords (processCard env recurse c st).store := by
  rcases hgood with hkw | ⟨hkw, hdet, hpure⟩
  · rw [processCard_negkw env recurse c st hkw]
    cases hfind : findByLink st c.link with
    | some ex =>
      simp only [hfind, Option.isSome_some, if_true]
      intro d hd
      exact hfree d ((eraseFirstByLink_sublist st c.link).mem hd)
    | none =>
      simp only [hfind, Option.isSome_none, Bool.false_eq_true, if_false]
      exact hfree
  · simp only [processCard, hkw, Bool.false_eq_true, if_false, hdet]
    rw [stepRegular]
    split
    · exact hfree
    · split
      · exact hfree
      · cases hft : fullPageTextOf env c.link with
        | none => exact hfree
        | some txt =>
          try simp only []
          cases hfind : findByLink st c.link with
          | some ex =>
            try simp only []
            split
            · intro d hd
              rcases mem_replaceFirstByLink hd with hd' | hd'
              · exact hfree d hd'
              · rw [hd']
                exact hkw
            · exact hfree
          | none =>
            intro d hd
            rcases List.mem_append.mp hd with hd' | hd'
            · exact hfree d hd'
            · rw [List.mem_singleton.mp hd']
              exact hkw

theorem saveCardsGo_preserves_other (env : Env)
    (recurse : List ScrapedCard → Store → RunResult) :
    ∀ (cards : List ScrapedCard) (st : Store) (l : String),
      (∀ c ∈ cards, GoodCard env c) → (∀ c ∈ cards, c.link ≠ l) →
      findByLink (saveCardsGo env recurse cards st).store l = findByLink st l := by
  intro cards
  induction cards with
  | nil => intro st l _ _; rfl
  | cons c rest ih =>
    intro st l hgood hne
    simp only [saveCardsGo, RunResult.seq]
    rw [ih _ l (fun x hx => hgood x (List.mem_cons_of_mem c hx))
        (fun x hx => hne x (List.mem_cons_of_mem c hx))]
    exact processCard_preserves_other env recurse c st l
      (hne c (List.mem_cons_self c rest)) (hgood c (List.mem_cons_self c rest))

theorem saveCardsGo_unique_good (env : Env)
    (recurse : List ScrapedCard → Store → RunResult) :
    ∀ (cards : List ScrapedCard) (st : Store),
      (∀ c ∈ cards, GoodCard env c) → UniqueLinks st →
      UniqueLinks (saveCardsGo env recurse cards st).store := by
  intro cards
  induction cards with
  | nil => intro st _ h; exact h
  | cons c rest ih =>
    intro st hgood huniq
    simp only [saveCardsGo, RunResult.seq]
    exact ih _ (fun x hx => hgood x (List.mem_cons_of_mem c hx))
      (processCard_unique_good env recurse c st (hgood c (List.mem_cons_self c rest)) huniq)

theorem saveCardsGo_kwfree (env : Env)
    (recurse : List ScrapedCard → Store → RunResult) :
    ∀ (cards : List ScrapedCard) (st : Store),
      (∀ c ∈ cards, GoodCard env c) → KwFreeStore env.negative_keywords st →
      KwFreeStore env.negative_keywords (saveCardsGo env recurse cards st).store := by
  intro cards
  induction cards with
  | nil => intro st _ h; exact h
  | cons c rest ih =>
    intro st hgood hfree
    simp only [saveCardsGo, RunResult.seq]
    exact ih _ (fun x hx => hgood x (List.mem_cons_of_mem c hx))
      (processCard_kwfree env recurse c st (hgood c (List.mem_cons_self c rest)) hfree)

theorem saveCardsGo_establishes (env : Env) (n2 : Int)
    (recurse : List ScrapedCard → Store → RunResult) (hle : env.now ≤ n2) :
    ∀ (cards : List ScrapedCard) (st : Store),
      UniqueLinks st → (∀ c ∈ cards, GoodCard env c) →
      cards.Pairwise (fun a b => a.link ≠ b.link) →
      ∀ c ∈ cards, NoWrite { env with now := n2 } c
        (findByLink (saveCardsGo env recurse cards st).store c.link) := by
  intro cards
  induction cards with
  | nil => intro st _ _ _ c hc; simp at hc
  | cons c0 rest ih =>
    intro st huniq hgood hpair c hc
    rcases List.pairwise_cons.mp hpair with ⟨hne0, hpairrest⟩
    simp only [saveCardsGo, RunResult.seq]
    rcases List.mem_cons.mp hc with hc0 | hcrest
    · subst hc0
      rw [saveCardsGo_preserves_other env recurse rest _ c.link
          (fun x hx => hgood x (List.mem_cons_of_mem c hx))
          (fun x hx => (hne0 x hx).symm)]
      exact processCard_establishes env n2 recurse c st hle
        (hgood c (List.mem_cons_self c rest)) huniq
    · exact ih _
        (processCard_unique_good env recurse c0 st (hgood c0 (List.mem_cons_self c0 rest)) huniq)
        (fun x hx => hgood x (List.mem_cons_of_mem c0 hx)) hpairrest c hcrest

theorem saveCardsGo_nowrite (env2 : Env)
    (recurse : List ScrapedCard → Store → RunResult) :
    ∀ (cards : List ScrapedCard) (st : Store),
      (∀ c ∈ cards, NoWrite env2 c (findByLink st c.link)) →
      (saveCardsGo env2 recurse cards st).creates = 0 ∧
      (saveCardsGo env2 recurse cards st).updates = 0 ∧
      (saveCardsGo env2 recurse cards st).store = st := by
  intro cards
  induction cards with
  | nil => intro st _; exact ⟨rfl, rfl, rfl⟩
  | cons c rest ih =>
    intro st hnw
    obtain ⟨hc1, hu1, hs1⟩ :=
      processCard_nowrite env2 recurse c st (hnw c (List.mem_cons_self c rest))
    have hrest := ih st (fun x hx => hnw x (List.mem_cons_of_mem c hx))
    simp only [saveCardsGo, RunResult.seq, hs1]
    obtain ⟨hc2, hu2, hs2⟩ := hrest
    exact ⟨by rw [hc1, hc2], by rw [hu1, hu2], hs2⟩

theorem save_to_database_as_go (env : Env) (fuel : Nat) :
    ∃ recurse, save_to_database env fuel = saveCardsGo env recurse := by
  cases fuel with
  | zero => exact ⟨_, rfl⟩
  | succ f => exact ⟨_, rfl⟩

/-- Claim C2 (amended): re-running the full sync for the same source,
keyword and lookback window when no upstream page has changed performs
zero creates and zero updates on the second run (under a later clock),
provided every candidate card either matches a negative keyword or is a
regular card whose date label parses via the configured date patterns,
the cards carry pairwise-distinct links, and the store entering the first
run has unique links and no negative-keyword rows.  Without the
parseable-date proviso the claim fails: a card's `date_updated` defaults
to `now()` and the second run updates it (see the counterexample). -/
theorem claim_C2 (env : Env) (n2 : Int) (fuel : Nat)
    (pages : List (List ScrapedCard)) (st : Store)
    (hle : env.now ≤ n2)
    (huniq : UniqueLinks st)
    (hfree : KwFreeStore env.negative_keywords st)
    (hgood : ∀ c ∈ pages.flatten, GoodCard env c)
    (hpair : pages.flatten.Pairwise (fun a b => a.link ≠ b.link)) :
    (scrape_all_results { env with now := n2 } fuel pages
        (scrape_all_results env fuel pages st).store).creates = 0 ∧
    (scrape_all_results { env with now := n2 } fuel pages
        (scrape_all_results env fuel pages st).store).updates = 0 := by
  obtain ⟨r1, hr1⟩ := save_to_database_as_go env fuel
  obtain ⟨r2, hr2⟩ := save_to_database_as_go { env with now := n2 } fuel
  have hfree1 : KwFreeStore env.negative_keywords
      (saveCardsGo env r1 pages.flatten st).store :=
    saveCardsGo_kwfree env r1 pages.flatten st hgood hfree
  have hsweep : remove_documents_with_negative_keywords env
      (saveCardsGo env r1 pages.flatten st).store =
      (saveCardsGo env r1 pages.flatten st).store := by
    apply List.filter_eq_self.mpr
    intro d hd
    rw [hfree1 d hd]
    rfl
  have hstore1 : (scrape_all_results env fuel pages st).store =
      (saveCardsGo env r1 pages.flatten st).store := by
    simp only [scrape_all_results, hr1, hsweep]
  have hnw : ∀ c ∈ pages.flatten, NoWrite { env with now := n2 } c
      (findByLink (saveCardsGo env r1 pages.flatten st).store c.link) :=
    saveCardsGo_establishes env n2 r1 hle pages.flatten st huniq hgood hpair
  have hrun2 := saveCardsGo_nowrite { env with now := n2 } r2 pages.flatten
    (saveCardsGo env r1 pages.flatten st).store hnw
  constructor
  · show (scrape_all_results _ fuel pages _).creates = 0
    rw [hstore1]
    simp only [scrape_all_results, hr2]
    exact hrun2.1
  · show (scrape_all_results _ fuel pages _).updates = 0
    rw [hstore1]
    simp only [scrape_all_results, hr2]
    exact hrun2.2.1

/-- A card with no date metadata: its `date_updated` defaults to the
clock of the run that processes it. -/
def undatedCard : ScrapedCard :=
  { title := "Avis sans date", link := "https://www.morbihan.gouv.fr/nodate",
    description := "", date_label := "", metadata := [], html_content := none }

/-- The same environment one day later. -/
def sampleEnvLater : Env := { sampleEnv with now := mkTimestamp 21 4 2024 }

/-- Counterexample to claim C2 as stated: re-running the sync over an
unchanged upstream page is not create/update-free when a card carries no
parseable date — its `date_updated` defaults to `now()`, so the second
run (under a later clock) sees a different date and performs an update. -/
theorem claim_C2_cex :
    (scrape_all_results sampleEnv 1 [[undatedCard]] []).creates = 1 ∧
    (scrape_all_results sampleEnvLater 1 [[undatedCard]]
       (scrape_all_results sampleEnv 1 [[undatedCard]] []).store).creates = 0 ∧
    (scrape_all_results sampleEnvLater 1 [[undatedCard]]
       (scrape_all_results sampleEnv 1 [[undatedCard]] []).store).updates = 1 := by
  decide

/-- Witness for the amended C2 at a concrete dated card: the second run
(one day later) performs zero creates and zero updates. -/
theorem claim_C2_witness :
    sampleEnv.now ≤ mkTimestamp 21 4 2024 ∧
    ((scrape_all_results { sampleEnv with now := mkTimestamp 21 4 2024 } 1 [[sampleCard]]
        (scrape_all_results sampleEnv 1 [[sampleCard]] []).store).creates = 0 ∧
     (scrape_all_results { sampleEnv with now := mkTimestamp 21 4 2024 } 1 [[sampleCard]]
        (scrape_all_results sampleEnv 1 [[sampleCard]] []).store).updates = 0) :=
  ⟨by decide,
   claim_C2 sampleEnv (mkTimestamp 21 4 2024) 1 [[sampleCard]] [] (by decide)
     List.Pairwise.nil
     (fun d hd => absurd hd (List.not_mem_nil d))
     (by
       intro c hc
       simp only [List.flatten, List.append_nil, List.mem_singleton] at hc
       subst hc
       right
       exact ⟨by decide, by decide, by decide⟩)
     (by decide)⟩
